import Mathlib

/-!
# The SCHED scheduling policy of minixMOD (`minix/servers/sched/schedule.c`)

A shallow embedding of the policy code and the properties settled about it.

Conventions of the embedding.

* `unsigned` objects are natural numbers; a store that can leave the 32-bit
  range is reduced modulo `2^32` (`to_unsigned`, `UINT_WRAP`).
* `int` objects are integers; the result of signed arithmetic is brought back
  into the 32-bit two's-complement range by `to_int`, which is what the
  compiled code does on the supported targets.
* The global process table `schedproc[NR_PROCS]` is a list of slots, the
  per-CPU counters `cpu_proc[]` a list of naturals.  A `for` loop over the
  table is `for_each_slot`.
* Everything the file gets from headers and from the kernel that is not part
  of `schedule.c` (queue constants, error numbers, the endpoint-to-slot macro,
  the permission check, the kernel calls) is a field of `Env`, so every theorem
  holds for each choice of them.  Replies of the kernel are indexed by the
  number of kernel calls made so far, so they may vary freely over time.
* The two random draws of a lottery round (`rand()` and `random()`) are
  arguments of `realizar_loteria`.
-/

namespace MinixSched

/-! ## Machine integers -/

/-- Number of values of a 32-bit `unsigned`. -/
def UINT_WRAP : Nat := 4294967296

/-- Conversion of an `int` value to `unsigned`. -/
def to_unsigned (x : Int) : Nat := (x % 4294967296).toNat

/-- Reduction of an integer to the 32-bit two's-complement `int` range. -/
def to_int (x : Int) : Int := (x + 2147483648) % 4294967296 - 2147483648

/-- Conversion of an `unsigned` value to `int`. -/
def int_of_unsigned (n : Nat) : Int := to_int (n : Int)

/-- Return value `OK`. -/
def OK : Int := 0

/-! ## Data -/

/-- One slot of `schedproc[]`.  Modelled from the spec: `struct schedproc`
(`schedproc.h` is not part of the sources); the `unsigned` fields are the ones
`do_nice` saves in `unsigned` locals, the `int` fields the ones it saves in
`int` locals. -/
structure Schedproc where
  endpoint : Int
  parent : Int
  flags : Nat
  max_priority : Nat
  priority : Nat
  time_slice : Nat
  cpu : Nat
  nice : Int
  ticketsNum : Int
deriving DecidableEq, Repr

/-- The two message kinds `do_start_scheduling` asserts it is called with. -/
inductive MsgType where
  | SCHEDULING_START
  | SCHEDULING_INHERIT
deriving DecidableEq, Repr

/-- The fields of `message` that the policy reads or writes. -/
structure Message where
  m_source : Int
  m_type : MsgType
  endpoint : Int
  parent : Int
  maxprio : Int
  quantum : Int
  scheduler : Int
deriving DecidableEq, Repr

/-- What `schedule.c` takes from its headers and from the kernel. -/
structure Env where
  NR_SCHED_QUEUES : Nat
  MAX_USER_Q : Nat
  USER_Q : Nat
  MIN_USER_Q : Nat
  CONFIG_SMP : Bool
  processors_count : Nat
  bsp_id : Nat
  RS_PROC_NR : Int
  SCHED_PROC_NR : Int
  EPERM : Int
  EBADEPT : Int
  EINVAL : Int
  EDEADEPT : Int
  EBADCPU : Int
  ENDPOINT_P : Int → Int
  accept_message : Message → Bool
  sys_schedctl : Nat → Int → Int
  sys_schedule : Nat → Int → Int → Int → Int → Int

/-- The globals next to the process table: the per-CPU counters and the number
of kernel calls made so far. -/
structure Globals where
  cpu_proc : List Nat
  kcalls : Nat
deriving DecidableEq, Repr

/-- The state of the scheduler. -/
structure State where
  schedproc : List Schedproc
  g : Globals
deriving DecidableEq, Repr

/-- Flag bit `IN_USE`.  Modelled from the spec: the in-use flag of a slot
(`schedproc.h` is not part of the sources). -/
def IN_USE : Nat := 1

/-- The test `rmp->flags & IN_USE`. -/
def in_use (p : Schedproc) : Bool := p.flags &&& IN_USE != 0

def SCHEDULE_CHANGE_PRIO : Nat := 1
def SCHEDULE_CHANGE_QUANTUM : Nat := 2
def SCHEDULE_CHANGE_CPU : Nat := 4
def SCHEDULE_CHANGE_ALL : Nat :=
  SCHEDULE_CHANGE_PRIO ||| SCHEDULE_CHANGE_QUANTUM ||| SCHEDULE_CHANGE_CPU

/-- The value `CPU_DEAD` (-1) as stored in the `unsigned` array `cpu_proc`. -/
def CPU_DEAD : Nat := to_unsigned (-1)

/-- The macro `cpu_is_available(c)`, `cpu_proc[c] >= 0`, on an `unsigned`
counter. -/
def cpu_is_available (v : Nat) : Bool := decide (0 ≤ v)

def DEFAULT_USER_TIME_SLICE : Nat := 200

/-- The macro `PROCESS_IN_USER_Q`. -/
def PROCESS_IN_USER_Q (env : Env) (x : Schedproc) : Bool :=
  decide (x.priority ≥ env.MAX_USER_Q) && decide (x.priority ≤ env.MIN_USER_Q)

/-- The macro `is_system_proc`. -/
def is_system_proc (env : Env) (p : Schedproc) : Bool :=
  decide (p.parent = env.RS_PROC_NR)

/-- A loop `for (proc_nr=0, rmp=schedproc; proc_nr < NR_PROCS; proc_nr++, rmp++)`
whose body works on the slot `rmp` and on loop-carried data `s`. -/
def for_each_slot {σ : Type} (body : σ → Schedproc → σ × Schedproc) :
    σ → List Schedproc → σ × List Schedproc
  | s, [] => (s, [])
  | s, rmp :: rest =>
    let r := body s rmp
    let t := for_each_slot body r.1 rest
    (t.1, r.2 :: t.2)

/-! ## `pick_cpu` -/

/-- Body of the loop of `pick_cpu`; the carried pair is `(cpu, cpu_load)`. -/
def pick_cpu_step (env : Env) (cpu_proc : List Nat) (s : Nat × Nat) (c : Nat) : Nat × Nat :=
  if !cpu_is_available (cpu_proc.getD c 0) then s
  else if c ≠ env.bsp_id ∧ s.2 > cpu_proc.getD c 0 then (c, cpu_proc.getD c 0)
  else s

/-- The CPU chosen by the loop of `pick_cpu`. -/
def pick_cpu_scan (env : Env) (cpu_proc : List Nat) : Nat :=
  ((List.range env.processors_count).foldl (pick_cpu_step env cpu_proc)
    (env.bsp_id, to_unsigned (-1))).1

/-- The function `pick_cpu`. -/
def pick_cpu (env : Env) (g : Globals) (proc : Schedproc) : Globals × Schedproc :=
  if env.CONFIG_SMP then
    if env.processors_count = 1 then (g, { proc with cpu := env.bsp_id })
    else if is_system_proc env proc then (g, { proc with cpu := env.bsp_id })
    else
      let cpu := pick_cpu_scan env g.cpu_proc
      ({ g with cpu_proc := g.cpu_proc.set cpu ((g.cpu_proc.getD cpu 0 + 1) % UINT_WRAP) },
       { proc with cpu := cpu })
  else (g, { proc with cpu := 0 })

/-! ## `schedule_process` -/

/-- The function `schedule_process`: returns `err`, the globals and the slot. -/
def schedule_process (env : Env) (g : Globals) (rmp : Schedproc) (flags : Nat) :
    Int × Globals × Schedproc :=
  let pc := pick_cpu env g rmp
  let g1 := pc.1
  let rmp1 := pc.2
  let new_prio : Int :=
    if flags &&& SCHEDULE_CHANGE_PRIO ≠ 0 then int_of_unsigned rmp1.priority else -1
  let new_quantum : Int :=
    if flags &&& SCHEDULE_CHANGE_QUANTUM ≠ 0 then int_of_unsigned rmp1.time_slice else -1
  let new_cpu : Int :=
    if flags &&& SCHEDULE_CHANGE_CPU ≠ 0 then int_of_unsigned rmp1.cpu else -1
  let err := env.sys_schedule g1.kcalls rmp1.endpoint new_prio new_quantum new_cpu
  (err, { g1 with kcalls := g1.kcalls + 1 }, rmp1)

/-- The macro `schedule_process_local`. -/
def schedule_process_local (env : Env) (g : Globals) (rmp : Schedproc) :
    Int × Globals × Schedproc :=
  schedule_process env g rmp ( SCHEDULE_CHANGE_PRIO ||| SCHEDULE_CHANGE_QUANTUM)

/-! ## `masbilletes` -/

/-- The function `masbilletes`: returns `add` and the slot. -/
def masbilletes (ntickets : Int) (p : Schedproc) : Int × Schedproc :=
  let add : Int :=
    if to_int (p.ticketsNum + ntickets) > 50 then to_int (50 - p.ticketsNum) else ntickets
  let add : Int :=
    if to_int (p.ticketsNum + ntickets) < 1 then to_int (1 - p.ticketsNum) else add
  (add, { p with ticketsNum := to_int (p.ticketsNum + add) })

/-! ## Handle resolution -/

/-- Modelled from the spec: resolution of a handle expected to be in use
(`sched_isokendpt`, defined outside `schedule.c`).  The handle is mapped to its
slot; the result is the slot index together with the slot, or a not-found
error when the slot is outside the table, is not in use, or is registered
under another handle. -/
def sched_isokendpt (env : Env) (tbl : List Schedproc) (endpoint : Int) :
    Except Int (Nat × Schedproc) :=
  let proc := env.ENDPOINT_P endpoint
  if proc < 0 then .error env.EBADEPT
  else
    match tbl[proc.toNat]? with
    | none => .error env.EINVAL
    | some p =>
      if endpoint ≠ p.endpoint then .error env.EDEADEPT
      else if !in_use p then .error env.EDEADEPT
      else .ok (proc.toNat, p)

/-- Modelled from the spec: resolution of a handle expected to be free
(`sched_isemtyendpt`, defined outside `schedule.c`).  The handle is mapped to
its slot; the result is the slot index together with the slot, or an error
when the slot is outside the table or already in use. -/
def sched_isemtyendpt (env : Env) (tbl : List Schedproc) (endpoint : Int) :
    Except Int (Nat × Schedproc) :=
  let proc := env.ENDPOINT_P endpoint
  if proc < 0 then .error env.EBADEPT
  else
    match tbl[proc.toNat]? with
    | none => .error env.EINVAL
    | some p =>
      if in_use p then .error env.EDEADEPT
      else .ok (proc.toNat, p)

/-! ## `realizar_loteria` -/

/-- Body of the first loop of `realizar_loteria`; the carried value is
`nTickets`. -/
def pool_step (env : Env) (r : Int) (nTickets : Int) (rmp : Schedproc) : Int × Schedproc :=
  if in_use rmp && PROCESS_IN_USER_Q env rmp then
    if env.USER_Q = rmp.priority then
      let n : Int := if r = 0 then to_int (nTickets + 50) else nTickets
      let n : Int := if r = 1 then to_int (n + 20) else n
      let n : Int := if r = 2 then to_int (n + 3) else n
      (n, rmp)
    else (nTickets, rmp)
  else (nTickets, rmp)

/-- Data carried by the second loop of `realizar_loteria`. -/
structure Scan where
  g : Globals
  TicketGanador : Int
  flag : Int
deriving DecidableEq, Repr

/-- Body of the second loop of `realizar_loteria`.  The test
`old_priority != rmp->priority` compares the saved value with the field. -/
def scan_step (env : Env) (s : Scan) (rmp : Schedproc) : Scan × Schedproc :=
  if in_use rmp && PROCESS_IN_USER_Q env rmp && decide (env.USER_Q = rmp.priority) then
    let old_priority := rmp.priority
    let s1 : Scan × Schedproc :=
      if s.TicketGanador ≥ 0 then
        let tg := to_int (s.TicketGanador - rmp.ticketsNum)
        if tg < 0 then
          ({ s with TicketGanador := tg, flag := OK }, { rmp with priority := env.MAX_USER_Q })
        else ({ s with TicketGanador := tg }, rmp)
      else (s, rmp)
    if old_priority ≠ s1.2.priority then
      let sp := schedule_process env s1.1.g s1.2 SCHEDULE_CHANGE_ALL
      ({ s1.1 with g := sp.2.1 }, sp.2.2)
    else s1
  else (s, rmp)

/-- The function `realizar_loteria`; `rand_v` is the value of `rand()` and
`random_v` the value of `random()`.  The third loop only counts into the local
`procesos`, which is printed, and is left out. -/
def realizar_loteria (env : Env) (st : State) (rand_v random_v : Nat) : Int × State :=
  let r : Int := Int.tmod (rand_v : Int) 3
  let nTickets : Int := (for_each_slot (pool_step env r) 0 st.schedproc).1
  let TicketGanador : Int := if nTickets ≠ 0 then Int.tmod (random_v : Int) nTickets else 0
  let sc := for_each_slot (scan_step env) { g := st.g, TicketGanador := TicketGanador, flag := -1 }
    st.schedproc
  (if nTickets ≠ 0 then sc.1.flag else OK, { schedproc := sc.2, g := sc.1.g })

/-! ## `balance_queues` -/

/-- Body of the loop of `balance_queues`.  The condition is the one of the
source, `rmp->priority > rmp->max_priority && ! !PROCESS_IN_USER_Q(rmp)`; the
decrement cannot wrap because `priority > max_priority >= 0`. -/
def balance_step (env : Env) (g : Globals) (rmp : Schedproc) : Globals × Schedproc :=
  if in_use rmp then
    if decide (rmp.priority > rmp.max_priority) && !(!(PROCESS_IN_USER_Q env rmp)) then
      let sp := schedule_process_local env g { rmp with priority := rmp.priority - 1 }
      (sp.2.1, sp.2.2)
    else (g, rmp)
  else (g, rmp)

/-- The function `balance_queues` (the re-arming of the timer is outside the
state). -/
def balance_queues (env : Env) (st : State) : State :=
  let r := for_each_slot (balance_step env) st.g st.schedproc
  { schedproc := r.2, g := r.1 }

/-! ## `do_noquantum` -/

/-- The demotion step of `do_noquantum`; the increment cannot wrap because
`priority + 1 <= MIN_USER_Q`. -/
def do_noquantum_demote (env : Env) (rmp : Schedproc) : Schedproc :=
  if rmp.priority < env.MIN_USER_Q then { rmp with priority := rmp.priority + 1 } else rmp

/-- The function `do_noquantum`. -/
def do_noquantum (env : Env) (st : State) (m : Message) (rand_v random_v : Nat) :
    Int × State :=
  match sched_isokendpt env st.schedproc m.m_source with
  | .error _ => (env.EBADEPT, st)
  | .ok (proc_nr_n, rmp) =>
    let sp := schedule_process_local env st.g (do_noquantum_demote env rmp)
    let st1 : State := { schedproc := st.schedproc.set proc_nr_n sp.2.2, g := sp.2.1 }
    if sp.1 ≠ OK then (sp.1, st1)
    else
      let lot := realizar_loteria env st1 rand_v random_v
      if lot.1 ≠ OK then (lot.1, lot.2) else (OK, lot.2)

/-! ## `do_stop_scheduling` -/

/-- The function `do_stop_scheduling`. -/
def do_stop_scheduling (env : Env) (st : State) (m : Message) : Int × State :=
  if !env.accept_message m then (env.EPERM, st)
  else
    match sched_isokendpt env st.schedproc m.endpoint with
    | .error _ => (env.EBADEPT, st)
    | .ok (proc_nr_n, rmp) =>
      let cpu_proc :=
        if env.CONFIG_SMP then
          st.g.cpu_proc.set rmp.cpu ((st.g.cpu_proc.getD rmp.cpu 0 + (UINT_WRAP - 1)) % UINT_WRAP)
        else st.g.cpu_proc
      (OK, { schedproc := st.schedproc.set proc_nr_n { rmp with flags := 0 },
             g := { st.g with cpu_proc := cpu_proc } })

/-! ## `do_start_scheduling` -/

/-- The loop `while ((rv = schedule_process(rmp, SCHEDULE_CHANGE_ALL)) == EBADCPU)`
of `do_start_scheduling`, run for at most `fuel` calls of `schedule_process`;
`none` when that many calls do not end it. -/
def start_retry (env : Env) : Nat → Globals → Schedproc → Option (Int × Globals × Schedproc)
  | 0, _, _ => none
  | fuel + 1, g, rmp =>
    let sp := schedule_process env g rmp SCHEDULE_CHANGE_ALL
    if sp.1 = env.EBADCPU then
      let g1 : Globals := { sp.2.1 with cpu_proc := sp.2.1.cpu_proc.set sp.2.2.cpu CPU_DEAD }
      let pc := pick_cpu env g1 sp.2.2
      start_retry env fuel pc.1 pc.2
    else some sp

/-- The part of `do_start_scheduling` after the `switch`: the take-over call,
the marking of the slot, the placement and the push. -/
def start_take_over (env : Env) (fuel : Nat) (st : State) (proc_nr_n : Nat) (rmp : Schedproc)
    (m : Message) : Option (Int × Message × State) :=
  let rv := env.sys_schedctl st.g.kcalls rmp.endpoint
  let g : Globals := { st.g with kcalls := st.g.kcalls + 1 }
  if rv ≠ OK then some (rv, m, { schedproc := st.schedproc.set proc_nr_n rmp, g := g })
  else
    let pc := pick_cpu env g { rmp with flags := IN_USE }
    match start_retry env fuel pc.1 pc.2 with
    | none => none
    | some (rv, g2, rmp2) =>
      if rv ≠ OK then some (rv, m, { schedproc := st.schedproc.set proc_nr_n rmp2, g := g2 })
      else
        some (OK, { m with scheduler := env.SCHED_PROC_NR },
          { schedproc := st.schedproc.set proc_nr_n rmp2, g := g2 })

/-- The function `do_start_scheduling`; `fuel` bounds the placement loop. -/
def do_start_scheduling (env : Env) (fuel : Nat) (st : State) (m : Message) :
    Option (Int × Message × State) :=
  if !env.accept_message m then some (env.EPERM, m, st)
  else
    match sched_isemtyendpt env st.schedproc m.endpoint with
    | .error rv => some (rv, m, st)
    | .ok (proc_nr_n, rmp0) =>
      let rmp : Schedproc :=
        { rmp0 with endpoint := m.endpoint, parent := m.parent,
                    max_priority := to_unsigned m.maxprio, ticketsNum := 3 }
      let rmp : Schedproc :=
        if rmp.endpoint = rmp.parent then
          { rmp with priority := env.USER_Q, time_slice := DEFAULT_USER_TIME_SLICE,
                     cpu := if env.CONFIG_SMP then env.bsp_id else rmp.cpu }
        else rmp
      match m.m_type with
      | .SCHEDULING_START =>
        start_take_over env fuel st proc_nr_n
          { rmp with priority := rmp.max_priority, time_slice := to_unsigned m.quantum } m
      | .SCHEDULING_INHERIT =>
        match sched_isokendpt env (st.schedproc.set proc_nr_n rmp) m.parent with
        | .error rv => some (rv, m, { st with schedproc := st.schedproc.set proc_nr_n rmp })
        | .ok (_, parent_rmp) =>
          start_take_over env fuel st proc_nr_n
            { rmp with priority := env.USER_Q, time_slice := parent_rmp.time_slice } m

/-! ## `do_nice` -/

/-- The function `do_nice`. -/
def do_nice (env : Env) (st : State) (m : Message) (rand_v random_v : Nat) : Int × State :=
  if !env.accept_message m then (env.EPERM, st)
  else
    match sched_isokendpt env st.schedproc m.endpoint with
    | .error _ => (env.EBADEPT, st)
    | .ok (proc_nr_n, rmp) =>
      let nice : Int := m.endpoint
      let new_q : Nat := to_unsigned m.maxprio
      if new_q ≥ env.NR_SCHED_QUEUES then (env.EINVAL, st)
      else
        let old_q := rmp.priority
        let old_max_q := rmp.max_priority
        let old_nice := rmp.nice
        let old_ticketsNum := rmp.ticketsNum
        let mb := masbilletes nice { rmp with priority := env.USER_Q }
        let rmp1 : Schedproc := { mb.2 with nice := mb.1 }
        let rmp2 : Schedproc := { rmp1 with priority := new_q, max_priority := new_q }
        let sp := schedule_process_local env st.g rmp2
        let rmp3 : Schedproc :=
          if sp.1 ≠ OK then
            { sp.2.2 with priority := old_q, max_priority := old_max_q, nice := old_nice,
                          ticketsNum := old_ticketsNum }
          else sp.2.2
        realizar_loteria env { schedproc := st.schedproc.set proc_nr_n rmp3, g := sp.2.1 }
          rand_v random_v

/-! ## A concrete configuration -/

/-- Endpoint-to-slot map of the concrete configuration: the low 15 bits of the
endpoint, offset by the 1023 task slots. -/
def endpoint_slot (e : Int) : Int := (e + 1023) % 32768 - 1023

/-- A configuration with 19 queues and the user band 16..18, entry level 17
(the level `realizar_loteria` reports on), negative error numbers, one CPU, a
permission check that accepts every sender and an executor that accepts every
call. -/
def cfg : Env :=
  { NR_SCHED_QUEUES := 19, MAX_USER_Q := 16, USER_Q := 17, MIN_USER_Q := 18,
    CONFIG_SMP := false, processors_count := 1, bsp_id := 0,
    RS_PROC_NR := 2, SCHED_PROC_NR := 4,
    EPERM := -1, EBADEPT := -301, EINVAL := -22, EDEADEPT := -302, EBADCPU := -303,
    ENDPOINT_P := endpoint_slot,
    accept_message := fun _ => true,
    sys_schedctl := fun _ _ => 0,
    sys_schedule := fun _ _ _ _ _ => 0 }

/-- The configuration `cfg` with an executor that rejects every push with
`EINVAL`. -/
def cfg_reject : Env := { cfg with sys_schedule := fun _ _ _ _ _ => -22 }

/-- A slot in use for the process with endpoint 0. -/
def slot0 (priority max_priority : Nat) (tickets : Int) : Schedproc :=
  { endpoint := 0, parent := 1, flags := IN_USE, max_priority := max_priority,
    priority := priority, time_slice := 200, cpu := 0, nice := 0, ticketsNum := tickets }

/-- A free slot. -/
def free_slot : Schedproc :=
  { endpoint := 0, parent := 0, flags := 0, max_priority := 0, priority := 0,
    time_slice := 0, cpu := 0, nice := 0, ticketsNum := 0 }

/-- A state whose table is `tbl`, with one CPU counter and no kernel call made. -/
def state_of (tbl : List Schedproc) : State :=
  { schedproc := tbl, g := { cpu_proc := [0], kcalls := 0 } }

/-- A two-CPU SMP variant of `cfg`. -/
def cfg_smp : Env := { cfg with CONFIG_SMP := true, processors_count := 2 }

/-- The clamp of the ticket-grant rule as the specification words it:
`min(50, max(1, x))`. -/
def clamp_tickets (x : Int) : Int := min 50 (max 1 x)

/-- Per-process pool contribution of a lottery class as the specification
words it: class 0 gives 50, class 1 gives 20, class 2 gives 3. -/
def class_weight (r : Nat) : Int := if r = 0 then 50 else if r = 1 then 20 else 3

/-- Tickets of a process after a sequence of `masbilletes` calls. -/
def grant_all (p : Schedproc) (requests : List Int) : Schedproc :=
  requests.foldl (fun q n => (masbilletes n q).2) p

/-- A ceiling-change request for the process `endpoint`. -/
def set_nice_msg (endpoint maxprio : Int) : Message :=
  { m_source := 0, m_type := .SCHEDULING_START, endpoint := endpoint, parent := 0,
    maxprio := maxprio, quantum := 0, scheduler := 0 }

/-- A start-scheduling request. -/
def start_msg (kind : MsgType) (endpoint parent maxprio quantum : Int) : Message :=
  { m_source := 0, m_type := kind, endpoint := endpoint, parent := parent,
    maxprio := maxprio, quantum := quantum, scheduler := 0 }

/-- A slot in use for the process with endpoint 100. -/
def slot100 (priority max_priority : Nat) (tickets : Int) : Schedproc :=
  { endpoint := 100, parent := 1, flags := IN_USE, max_priority := max_priority,
    priority := priority, time_slice := 200, cpu := 0, nice := 0, ticketsNum := tickets }

/-- A table of 101 slots in which only slot 100 is in use. -/
def table100 (p : Schedproc) : List Schedproc := List.replicate 100 free_slot ++ [p]

/-- A state whose table is `tbl`, with two CPU counters at zero and no kernel
call made. -/
def state_smp (tbl : List Schedproc) : State :=
  { schedproc := tbl, g := { cpu_proc := [0, 0], kcalls := 0 } }

/-- The state after the process with endpoint 0 has been registered as its own
parent, on `cfg`, with ceiling 5 and quantum 77. -/
def state_registered : State :=
  { schedproc := [{ endpoint := 0, parent := 0, flags := IN_USE, max_priority := 5,
                    priority := 5, time_slice := 77, cpu := 0, nice := 0, ticketsNum := 3 }],
    g := { cpu_proc := [0], kcalls := 2 } }

/-- An SMP configuration with `n` processors whose executor rejects every push
with `EBADCPU`. -/
def cfg_badcpu (n : Nat) : Env :=
  { cfg with CONFIG_SMP := true, processors_count := n,
             sys_schedule := fun _ _ _ _ _ => -303 }

/-- The configuration `cfg_smp` with an executor that rejects every push with
`EINVAL`. -/
def cfg_smp_reject : Env := { cfg_smp with sys_schedule := fun _ _ _ _ _ => -22 }

/-- A slot in use for a system process: its parent is RS. -/
def slot_sys : Schedproc :=
  { endpoint := 0, parent := 2, flags := IN_USE, max_priority := 5, priority := 5,
    time_slice := 200, cpu := 0, nice := 0, ticketsNum := 3 }

/-- A four-CPU SMP variant of `cfg`. -/
def cfg_smp4 : Env := { cfg with CONFIG_SMP := true, processors_count := 4 }

/-- A sequence of quantum-exhaustion events for the sender of `m`, one for each
pair of lottery draws, with no other event in between. -/
def noquantum_events (env : Env) (m : Message) : State → List (Nat × Nat) → State
  | st, [] => st
  | st, d :: ds => noquantum_events env m (do_noquantum env st m d.1 d.2).2 ds

/-- The condition under which the loops of `realizar_loteria` work on a slot:
in use, inside the user band, at `USER_Q`. -/
def eligible (env : Env) (p : Schedproc) : Bool :=
  in_use p && PROCESS_IN_USER_Q env p && decide (env.USER_Q = p.priority)

/-- The sum of the tickets of the eligible slots of a list of slots. -/
def ticket_sum (env : Env) (l : List Schedproc) : Int :=
  ((l.filter (eligible env)).map Schedproc.ticketsNum).sum

/-- The target `TicketGanador` that `realizar_loteria` draws before its scan. -/
def drawn_target (env : Env) (st : State) (rand_v random_v : Nat) : Int :=
  if (for_each_slot (pool_step env (Int.tmod (rand_v : Int) 3)) 0 st.schedproc).1 ≠ 0 then
    Int.tmod (random_v : Int)
      (for_each_slot (pool_step env (Int.tmod (rand_v : Int) 3)) 0 st.schedproc).1
  else 0

/-- The slot as `do_start_scheduling` has populated it when it reaches its
`switch`. -/
def populated (env : Env) (m : Message) (rmp0 : Schedproc) : Schedproc :=
  if m.endpoint = m.parent then
    { rmp0 with endpoint := m.endpoint, parent := m.parent,
                max_priority := to_unsigned m.maxprio, ticketsNum := 3,
                priority := env.USER_Q, time_slice := DEFAULT_USER_TIME_SLICE,
                cpu := if env.CONFIG_SMP then env.bsp_id else rmp0.cpu }
  else
    { rmp0 with endpoint := m.endpoint, parent := m.parent,
                max_priority := to_unsigned m.maxprio, ticketsNum := 3 }

/-- A slot in use for a process with quantum 42. -/
def slot_parent : Schedproc :=
  { endpoint := 0, parent := 0, flags := IN_USE, max_priority := 5, priority := 5,
    time_slice := 42, cpu := 0, nice := 0, ticketsNum := 3 }

/-- The state after the process with endpoint 1 has been registered on `cfg`
with ceiling 9, inheriting from the process of `slot_parent`. -/
def state_inherited : State :=
  { schedproc := [slot_parent,
      { endpoint := 1, parent := 0, flags := IN_USE, max_priority := 9, priority := 17,
        time_slice := 42, cpu := 0, nice := 0, ticketsNum := 3 }],
    g := { cpu_proc := [0], kcalls := 2 } }

/-- The configuration `cfg` with a kernel that refuses every take-over call
with `EINVAL`. -/
def cfg_noctl : Env := { cfg with sys_schedctl := fun _ _ => -22 }

theorem to_int_of_range (x : Int) (h1 : -2147483648 ≤ x) (h2 : x < 2147483648) :
    to_int x = x := by
  unfold to_int
  omega

theorem to_int_range (x : Int) : -2147483648 ≤ to_int x ∧ to_int x < 2147483648 := by
  unfold to_int
  omega

/-! ## `masbilletes`: facts -/

/-- Whatever the balance and the request, also when the additions wrap, the
balance left by `masbilletes` is in `[1, 50]`. -/
theorem masbilletes_range (n : Int) (p : Schedproc) :
    1 ≤ (masbilletes n p).2.ticketsNum ∧ (masbilletes n p).2.ticketsNum ≤ 50 := by
  unfold masbilletes
  simp only
  split_ifs with h1 h2 <;> unfold to_int at * <;> omega

/-- The balance is in `[1, 50]` after every non-empty sequence of grants. -/
theorem grant_all_range (p : Schedproc) (requests : List Int) (h : requests ≠ []) :
    1 ≤ (grant_all p requests).ticketsNum ∧ (grant_all p requests).ticketsNum ≤ 50 := by
  induction requests using List.reverseRecOn with
  | nil => exact absurd rfl h
  | append_singleton l n _ =>
    unfold grant_all
    rw [List.foldl_append]
    exact masbilletes_range n _

/-- A balance in `[1, 50]` is in `[1, 50]` after every sequence of grants. -/
theorem grant_all_range_from (requests : List Int) :
    ∀ p : Schedproc, (1 ≤ p.ticketsNum ∧ p.ticketsNum ≤ 50) →
      1 ≤ (grant_all p requests).ticketsNum ∧ (grant_all p requests).ticketsNum ≤ 50 := by
  induction requests with
  | nil => intro p hp; exact hp
  | cons n l ih =>
    intro p _
    exact ih (masbilletes n p).2 (masbilletes_range n p)

/-- The other fields of the slot are not touched by `masbilletes`. -/
theorem masbilletes_frame (n : Int) (p : Schedproc) :
    (masbilletes n p).2 = { p with ticketsNum := (masbilletes n p).2.ticketsNum } := by
  unfold masbilletes
  rfl

/-! ## Loops over the table: facts -/

theorem for_each_slot_length {σ : Type} (body : σ → Schedproc → σ × Schedproc) :
    ∀ (l : List Schedproc) (s : σ), (for_each_slot body s l).2.length = l.length := by
  intro l
  induction l with
  | nil => intro s; rfl
  | cons a l ih => intro s; simp [for_each_slot, ih]

/-- A loop whose body changes neither the carried data nor the slot, on every
slot of the list, changes nothing. -/
theorem for_each_slot_skip {σ : Type} (body : σ → Schedproc → σ × Schedproc) (s : σ) :
    ∀ (l : List Schedproc), (∀ q ∈ l, body s q = (s, q)) → for_each_slot body s l = (s, l) := by
  intro l
  induction l with
  | nil => intro _; rfl
  | cons a l ih =>
    intro h
    have ha : body s a = (s, a) := h a (List.mem_cons_self a l)
    have hl : for_each_slot body s l = (s, l) :=
      ih (fun q hq => h q (List.mem_cons_of_mem a hq))
    simp [for_each_slot, ha, hl]

theorem for_each_slot_append {σ : Type} (body : σ → Schedproc → σ × Schedproc) :
    ∀ (l1 l2 : List Schedproc) (s : σ),
      for_each_slot body s (l1 ++ l2) =
        ((for_each_slot body (for_each_slot body s l1).1 l2).1,
         (for_each_slot body s l1).2 ++ (for_each_slot body (for_each_slot body s l1).1 l2).2) := by
  intro l1
  induction l1 with
  | nil => intro l2 s; simp [for_each_slot]
  | cons a l1 ih => intro l2 s; simp [for_each_slot, ih]

/-- A relation that the body establishes between a slot and what it leaves in
the slot holds between the slots of the table before and after the loop. -/
theorem for_each_slot_rel {σ : Type} (body : σ → Schedproc → σ × Schedproc)
    (R : Schedproc → Schedproc → Prop) (hR : ∀ s q, R q (body s q).2) :
    ∀ (l : List Schedproc) (s : σ) (i : Nat) (q : Schedproc), l[i]? = some q →
      ∃ q', (for_each_slot body s l).2[i]? = some q' ∧ R q q' := by
  intro l
  induction l with
  | nil => intro s i q h; simp at h
  | cons a l ih =>
    intro s i q h
    cases i with
    | zero =>
      simp at h
      subst h
      exact ⟨(body s a).2, by simp [for_each_slot], hR s a⟩
    | succ j =>
      simp at h
      obtain ⟨q', h1, h2⟩ := ih (body s a).1 j q h
      exact ⟨q', by simpa [for_each_slot] using h1, h2⟩

/-- A table splits around each of its slots. -/
theorem split_at_slot (l : List Schedproc) (i : Nat) (q : Schedproc) (h : l[i]? = some q) :
    l = l.take i ++ q :: l.drop (i + 1) ∧ (l.take i).length = i := by
  have hi : i < l.length := by
    by_contra hc
    have : l[i]? = none := List.getElem?_eq_none (by omega)
    rw [this] at h
    cases h
  have hq : l[i] = q := by
    rw [List.getElem?_eq_getElem hi] at h
    exact Option.some.inj h
  constructor
  · rw [← hq, ← List.drop_eq_getElem_cons hi, List.take_append_drop]
  · simp [List.length_take]; omega

/-! ## `pick_cpu` and `schedule_process`: facts -/

/-- Only the field `cpu` of the slot is written by `pick_cpu`. -/
theorem pick_cpu_frame (env : Env) (g : Globals) (p : Schedproc) :
    (pick_cpu env g p).2 = { p with cpu := (pick_cpu env g p).2.cpu } := by
  unfold pick_cpu
  split_ifs <;> rfl

/-- The kernel-call counter is not touched by `pick_cpu`. -/
theorem pick_cpu_kcalls (env : Env) (g : Globals) (p : Schedproc) :
    (pick_cpu env g p).1.kcalls = g.kcalls := by
  unfold pick_cpu
  split_ifs <;> rfl

/-- Only the field `cpu` of the slot is written by `schedule_process`. -/
theorem schedule_process_frame (env : Env) (g : Globals) (p : Schedproc) (flags : Nat) :
    (schedule_process env g p flags).2.2 =
      { p with cpu := (schedule_process env g p flags).2.2.cpu } := by
  unfold schedule_process
  exact pick_cpu_frame env g p

/-- The reply that `schedule_process_local` returns is the reply of the
executor to the push of the priority and the quantum of the slot. -/
theorem schedule_process_local_rv (env : Env) (g : Globals) (p : Schedproc) :
    (schedule_process_local env g p).1 =
      env.sys_schedule g.kcalls p.endpoint (int_of_unsigned p.priority)
        (int_of_unsigned p.time_slice) (-1) := by
  unfold schedule_process_local schedule_process
  have h := pick_cpu_frame env g p
  have hk := pick_cpu_kcalls env g p
  simp only [hk]
  rw [h]
  have h34 : (3 &&& 4 : Nat) = 0 := by decide
  simp [ SCHEDULE_CHANGE_PRIO, SCHEDULE_CHANGE_QUANTUM, SCHEDULE_CHANGE_CPU, h34]

theorem schedule_process_priority (env : Env) (g : Globals) (p : Schedproc) (flags : Nat) :
    (schedule_process env g p flags).2.2.priority = p.priority := by
  rw [schedule_process_frame]

theorem schedule_process_max_priority (env : Env) (g : Globals) (p : Schedproc) (flags : Nat) :
    (schedule_process env g p flags).2.2.max_priority = p.max_priority := by
  rw [schedule_process_frame]

theorem schedule_process_ticketsNum (env : Env) (g : Globals) (p : Schedproc) (flags : Nat) :
    (schedule_process env g p flags).2.2.ticketsNum = p.ticketsNum := by
  rw [schedule_process_frame]

theorem schedule_process_flags (env : Env) (g : Globals) (p : Schedproc) (flags : Nat) :
    (schedule_process env g p flags).2.2.flags = p.flags := by
  rw [schedule_process_frame]

theorem schedule_process_time_slice (env : Env) (g : Globals) (p : Schedproc) (flags : Nat) :
    (schedule_process env g p flags).2.2.time_slice = p.time_slice := by
  rw [schedule_process_frame]

theorem schedule_process_endpoint (env : Env) (g : Globals) (p : Schedproc) (flags : Nat) :
    (schedule_process env g p flags).2.2.endpoint = p.endpoint := by
  rw [schedule_process_frame]

/-! ## `realizar_loteria`: facts -/

/-- What one step of the scan may do to a slot: the ceiling, the tickets, the
flags, the quantum and the handle stay, and the priority either stays or goes
from `USER_Q` to `MAX_USER_Q`. -/
theorem scan_step_slot (env : Env) (s : Scan) (q : Schedproc) :
    (scan_step env s q).2.max_priority = q.max_priority ∧
    (scan_step env s q).2.ticketsNum = q.ticketsNum ∧
    (scan_step env s q).2.flags = q.flags ∧
    (scan_step env s q).2.time_slice = q.time_slice ∧
    (scan_step env s q).2.endpoint = q.endpoint ∧
    ((scan_step env s q).2.priority = q.priority ∨
      (q.priority = env.USER_Q ∧ (scan_step env s q).2.priority = env.MAX_USER_Q)) := by
  unfold scan_step
  by_cases he : (in_use q && PROCESS_IN_USER_Q env q && decide (env.USER_Q = q.priority)) = true
  · have hp : q.priority = env.USER_Q := by
      simp only [Bool.and_eq_true, decide_eq_true_eq] at he
      exact he.2.symm
    simp only [he, if_true]
    split_ifs <;>
      simp [schedule_process_priority, schedule_process_max_priority,
        schedule_process_ticketsNum, schedule_process_flags, schedule_process_time_slice,
        schedule_process_endpoint, hp]
  · simp [he]

/-- What a lottery round may do to a slot of the table. -/
theorem realizar_loteria_slot (env : Env) (st : State) (rand_v random_v : Nat) (i : Nat)
    (q : Schedproc) (h : st.schedproc[i]? = some q) :
    ∃ q', (realizar_loteria env st rand_v random_v).2.schedproc[i]? = some q' ∧
      q'.max_priority = q.max_priority ∧ q'.ticketsNum = q.ticketsNum ∧ q'.flags = q.flags ∧
      q'.time_slice = q.time_slice ∧ q'.endpoint = q.endpoint ∧
      (q'.priority = q.priority ∨
        (q.priority = env.USER_Q ∧ q'.priority = env.MAX_USER_Q)) := by
  unfold realizar_loteria
  exact for_each_slot_rel (scan_step env)
    (fun q q' => q'.max_priority = q.max_priority ∧ q'.ticketsNum = q.ticketsNum ∧
      q'.flags = q.flags ∧ q'.time_slice = q.time_slice ∧ q'.endpoint = q.endpoint ∧
      (q'.priority = q.priority ∨ (q.priority = env.USER_Q ∧ q'.priority = env.MAX_USER_Q)))
    (scan_step_slot env) st.schedproc _ i q h

/-- A loop over a table in which the body does nothing on every slot but one:
only that slot is worked on. -/
theorem for_each_slot_single {σ : Type} (body : σ → Schedproc → σ × Schedproc)
    (pre post : List Schedproc) (p : Schedproc) (s : σ)
    (hpre : ∀ q ∈ pre, ∀ t, body t q = (t, q)) (hpost : ∀ q ∈ post, ∀ t, body t q = (t, q)) :
    for_each_slot body s (pre ++ p :: post) = ((body s p).1, pre ++ (body s p).2 :: post) := by
  rw [for_each_slot_append]
  rw [for_each_slot_skip body s pre (fun q hq => hpre q hq s)]
  simp only [for_each_slot]
  rw [for_each_slot_skip body (body s p).1 post (fun q hq => hpost q hq _)]

/-- A table in which every slot other than slot `i` fails a condition splits
into the slots before `i`, slot `i` and the slots after it. -/
theorem isolate_slot (l : List Schedproc) (i : Nat) (p : Schedproc) (C : Schedproc → Prop)
    (h : l[i]? = some p) (hothers : ∀ j q, l[j]? = some q → j ≠ i → ¬ C q) :
    ∃ pre post, l = pre ++ p :: post ∧ pre.length = i ∧ (∀ q ∈ pre, ¬ C q) ∧
      (∀ q ∈ post, ¬ C q) := by
  obtain ⟨h1, h2⟩ := split_at_slot l i p h
  refine ⟨l.take i, l.drop (i + 1), h1, h2, ?_, ?_⟩
  · intro q hq
    obtain ⟨j, hj⟩ := List.mem_iff_getElem?.mp hq
    rw [List.getElem?_take] at hj
    by_cases hji : j < i
    · rw [if_pos hji] at hj
      exact hothers j q hj (by omega)
    · rw [if_neg hji] at hj
      cases hj
  · intro q hq
    obtain ⟨j, hj⟩ := List.mem_iff_getElem?.mp hq
    rw [List.getElem?_drop] at hj
    exact hothers (i + 1 + j) q hj (by omega)

/-- A slot that is not in use at `USER_Q` adds nothing to the pool. -/
theorem pool_step_skip (env : Env) (r : Int) (q : Schedproc)
    (h : ¬ (in_use q = true ∧ q.priority = env.USER_Q)) (n : Int) :
    pool_step env r n q = (n, q) := by
  unfold pool_step
  by_cases h1 : (in_use q && PROCESS_IN_USER_Q env q) = true
  · simp only [Bool.and_eq_true] at h1
    have h2 : ¬ env.USER_Q = q.priority := fun hc => h ⟨h1.1, hc.symm⟩
    simp [h1, h2]
  · simp [h1]

/-- A slot that is not in use at `USER_Q` is passed over by the scan. -/
theorem scan_step_skip (env : Env) (q : Schedproc)
    (h : ¬ (in_use q = true ∧ q.priority = env.USER_Q)) (s : Scan) :
    scan_step env s q = (s, q) := by
  unfold scan_step
  have h1 : ¬ ((in_use q && PROCESS_IN_USER_Q env q && decide (env.USER_Q = q.priority)) = true) := by
    simp only [Bool.and_eq_true, decide_eq_true_eq]
    intro hc
    exact h ⟨hc.1.1, hc.2.symm⟩
  simp [h1]

/-- An eligible slot adds the weight of the class to the pool. -/
theorem pool_step_eligible (env : Env) (rand_v : Nat) (p : Schedproc)
    (hband : env.MAX_USER_Q ≤ env.USER_Q ∧ env.USER_Q ≤ env.MIN_USER_Q)
    (huse : in_use p = true) (hprio : p.priority = env.USER_Q) :
    (pool_step env (Int.tmod (rand_v : Int) 3) 0 p).1 = class_weight (rand_v % 3) := by
  have hr : Int.tmod (rand_v : Int) 3 = ((rand_v % 3 : Nat) : Int) := by
    rw [Int.tmod_eq_emod (by omega) (by omega)]
    omega
  have hq : PROCESS_IN_USER_Q env p = true := by
    simp [PROCESS_IN_USER_Q, hprio, hband.1, hband.2]
  unfold pool_step class_weight
  rw [hr]
  simp only [huse, hq, hprio, Bool.and_self, if_true]
  have h3 : rand_v % 3 < 3 := Nat.mod_lt _ (by omega)
  have hcases : rand_v % 3 = 0 ∨ rand_v % 3 = 1 ∨ rand_v % 3 = 2 := by omega
  rcases hcases with h | h | h <;> rw [h] <;> simp [to_int]

/-- The scan at an eligible slot whose tickets are in `[1, 50]`, with a target
that is not negative: the slot wins exactly when the target is below its
tickets. -/
theorem scan_step_eligible (env : Env) (s : Scan) (p : Schedproc)
    (hband : env.MAX_USER_Q ≤ env.USER_Q ∧ env.USER_Q ≤ env.MIN_USER_Q)
    (huse : in_use p = true) (hprio : p.priority = env.USER_Q)
    (ht : 1 ≤ p.ticketsNum ∧ p.ticketsNum ≤ 50)
    (htg : 0 ≤ s.TicketGanador ∧ s.TicketGanador < 2147483648) :
    (scan_step env s p).2.priority =
      if s.TicketGanador < p.ticketsNum then env.MAX_USER_Q else env.USER_Q := by
  have hq : PROCESS_IN_USER_Q env p = true := by
    simp [PROCESS_IN_USER_Q, hprio, hband.1, hband.2]
  have hw : to_int (s.TicketGanador - p.ticketsNum) = s.TicketGanador - p.ticketsNum :=
    to_int_of_range _ (by omega) (by omega)
  unfold scan_step
  simp only [huse, hq, hprio, Bool.and_self, decide_True, if_true, hw, htg.1, ge_iff_le]
  by_cases hlt : s.TicketGanador < p.ticketsNum
  · have h0 : s.TicketGanador - p.ticketsNum < 0 := by omega
    simp only [h0, hlt, if_true]
    split_ifs <;> simp_all [schedule_process_priority]
  · have h0 : ¬ s.TicketGanador - p.ticketsNum < 0 := by omega
    simp [h0, hlt, hprio]

/-! ## `balance_queues`: facts -/

/-- The priority that one step of the sweep leaves: one less for an in-use
slot inside the user band whose priority exceeds its ceiling, the same for
every other slot. -/
theorem balance_step_priority (env : Env) (g : Globals) (p : Schedproc) :
    (balance_step env g p).2.priority =
      if in_use p = true ∧ p.priority > p.max_priority ∧ PROCESS_IN_USER_Q env p = true
      then p.priority - 1 else p.priority := by
  unfold balance_step schedule_process_local
  by_cases h1 : in_use p = true
  · by_cases h2 : p.priority > p.max_priority
    · by_cases h3 : PROCESS_IN_USER_Q env p = true
      · simp [h1, h2, h3, schedule_process_priority]
      · simp [h1, h2, h3]
    · simp [h1, h2]
  · simp [h1]

/-- A slot that is not in use is not touched by the sweep. -/
theorem balance_step_free (env : Env) (g : Globals) (p : Schedproc) (h : in_use p = false) :
    balance_step env g p = (g, p) := by
  unfold balance_step
  simp [h]

/-! ## The aging sweep (C1, C2) -/

/-- C1: the claim is that an aging sweep never changes the priority of an
in-use process inside the user band.  On the code it does: with the user band
16..18, an in-use process at priority 18 (inside the band) with ceiling 16 is
promoted to 17 by one sweep, because the condition of `balance_queues` negates
`PROCESS_IN_USER_Q` twice. -/
theorem C1_sweep_promotes_inside_user_band :
    in_use (slot0 18 16 3) = true ∧
    PROCESS_IN_USER_Q cfg (slot0 18 16 3) = true ∧
    (balance_queues cfg (state_of [slot0 18 16 3])).schedproc.map Schedproc.priority = [17] := by
  decide

/-- C2: the claim is that an aging sweep lowers by one the priority of every
in-use process outside the user band whose priority exceeds its ceiling.  On
the code it does not: with the user band 16..18, an in-use process at priority
10 (outside the band) with ceiling 5 is still at priority 10 after a sweep,
and no push is made for it. -/
theorem C2_sweep_skips_outside_user_band :
    in_use (slot0 10 5 3) = true ∧
    PROCESS_IN_USER_Q cfg (slot0 10 5 3) = false ∧
    (slot0 10 5 3).priority > (slot0 10 5 3).max_priority ∧
    balance_queues cfg (state_of [slot0 10 5 3]) = state_of [slot0 10 5 3] := by
  decide

/-! ## A lottery round with one eligible process (C3) -/

/-- C3, as stated, fails: one eligible process with 3 tickets, class 0 (pool
50) and target 10 in `[0, 49]`; the round leaves the process at `USER_Q` = 17
and returns the no-winner code -1. -/
theorem C3_single_eligible_not_promoted :
    (realizar_loteria cfg (state_of [slot0 17 17 3]) 0 10).1 = -1 ∧
    (realizar_loteria cfg (state_of [slot0 17 17 3]) 0 10).2.schedproc.map Schedproc.priority
      = [17] := by
  decide

/-- C3, amended: when the table holds exactly one eligible process (in use, at
`USER_Q`, which lies in the user band) with tickets in `[1, 50]`, a lottery
round of class `r = rand_v % 3` and target `random_v % class_weight r` leaves
that process at `MAX_USER_Q` when the target is below its tickets, and at
`USER_Q` otherwise. -/
theorem C3_single_eligible (env : Env) (st : State) (i : Nat) (P : Schedproc)
    (rand_v random_v : Nat)
    (hband : env.MAX_USER_Q ≤ env.USER_Q ∧ env.USER_Q ≤ env.MIN_USER_Q)
    (hP : st.schedproc[i]? = some P) (huse : in_use P = true)
    (hprio : P.priority = env.USER_Q)
    (ht : 1 ≤ P.ticketsNum ∧ P.ticketsNum ≤ 50)
    (hothers : ∀ j q, st.schedproc[j]? = some q → j ≠ i →
      ¬ (in_use q = true ∧ q.priority = env.USER_Q)) :
    ∃ P', (realizar_loteria env st rand_v random_v).2.schedproc[i]? = some P' ∧
      P'.priority =
        if (random_v : Int) % class_weight (rand_v % 3) < P.ticketsNum then env.MAX_USER_Q
        else env.USER_Q := by
  obtain ⟨pre, post, hl, hlen, hpre, hpost⟩ :=
    isolate_slot st.schedproc i P (fun q => in_use q = true ∧ q.priority = env.USER_Q) hP hothers
  have hpool : (for_each_slot (pool_step env (Int.tmod (rand_v : Int) 3)) 0 st.schedproc).1
      = class_weight (rand_v % 3) := by
    rw [hl, for_each_slot_single _ pre post P 0
      (fun q hq t => pool_step_skip env _ q (hpre q hq) t)
      (fun q hq t => pool_step_skip env _ q (hpost q hq) t)]
    exact pool_step_eligible env rand_v P hband huse hprio
  have hw : 0 < class_weight (rand_v % 3) ∧ class_weight (rand_v % 3) ≤ 50 := by
    unfold class_weight
    split_ifs <;> omega
  have hne : class_weight (rand_v % 3) ≠ 0 := by omega
  have htm : Int.tmod (random_v : Int) (class_weight (rand_v % 3))
      = (random_v : Int) % class_weight (rand_v % 3) :=
    Int.tmod_eq_emod (by omega) (by omega)
  have hlo : 0 ≤ (random_v : Int) % class_weight (rand_v % 3) := Int.emod_nonneg _ hne
  have hhi : (random_v : Int) % class_weight (rand_v % 3) < class_weight (rand_v % 3) :=
    Int.emod_lt_of_pos _ hw.1
  unfold realizar_loteria
  simp only [hpool, htm, hne, ne_eq, not_false_eq_true, if_true]
  rw [hl, for_each_slot_single (scan_step env) pre post P _
      (fun q hq t => scan_step_skip env q (hpre q hq) t)
      (fun q hq t => scan_step_skip env q (hpost q hq) t)]
  refine ⟨(scan_step env ⟨st.g, (random_v : Int) % class_weight (rand_v % 3), -1⟩ P).2, ?_, ?_⟩
  · simp only []
    rw [List.getElem?_append_right (by omega)]
    simp [hlen]
  · rw [scan_step_eligible env _ P hband huse hprio ht ⟨hlo, by simp only []; omega⟩]

/-- C3, amended, at a two-slot table: class 2 (pool 3), target 1, 3 tickets. -/
theorem C3_single_eligible_witness :
    ∃ P', (realizar_loteria cfg (state_of [free_slot, slot0 17 17 3]) 2 1).2.schedproc[1]?
        = some P' ∧
      P'.priority =
        if ((1 : Nat) : Int) % class_weight (2 % 3) < (slot0 17 17 3).ticketsNum
        then cfg.MAX_USER_Q else cfg.USER_Q :=
  C3_single_eligible cfg (state_of [free_slot, slot0 17 17 3]) 1 (slot0 17 17 3) 2 1
    (by decide) rfl (by decide) rfl (by decide)
    (by
      intro j q h hj
      match j, h, hj with
      | 0, h, _ =>
        have hq : q = free_slot := by
          simp [state_of] at h
          exact h.symm
        subst hq
        decide
      | 1, _, hj => exact absurd rfl hj
      | (k + 2), h, _ => simp [state_of] at h)

/-! ## `do_nice`: facts -/

/-- A handle that resolves as in use names a slot of the table that is in
use. -/
theorem sched_isokendpt_ok (env : Env) (tbl : List Schedproc) (e : Int) (i : Nat)
    (P : Schedproc) (h : sched_isokendpt env tbl e = .ok (i, P)) :
    tbl[i]? = some P ∧ in_use P = true ∧ i < tbl.length := by
  unfold sched_isokendpt at h
  simp only at h
  split_ifs at h with h1
  split at h
  · cases h
  · rename_i p hp
    split_ifs at h with h2 h3
    cases h
    have hlt : (env.ENDPOINT_P e).toNat < tbl.length := by
      by_contra hc
      rw [List.getElem?_eq_none (by omega)] at hp
      cases hp
    refine ⟨hp, ?_, hlt⟩
    simpa using h3

/-- The body of `do_nice` once the request is accepted, the handle resolved and
the ceiling in range. -/
theorem do_nice_accepted (env : Env) (st : State) (m : Message) (rand_v random_v : Nat)
    (i : Nat) (P : Schedproc)
    (hacc : env.accept_message m = true)
    (hres : sched_isokendpt env st.schedproc m.endpoint = .ok (i, P))
    (hq : to_unsigned m.maxprio < env.NR_SCHED_QUEUES) :
    do_nice env st m rand_v random_v =
      realizar_loteria env
        { schedproc := st.schedproc.set i
            (if (schedule_process_local env st.g
                  { (masbilletes m.endpoint { P with priority := env.USER_Q }).2 with
                    nice := (masbilletes m.endpoint { P with priority := env.USER_Q }).1,
                    priority := to_unsigned m.maxprio,
                    max_priority := to_unsigned m.maxprio }).1 ≠ OK then
              { (schedule_process_local env st.g
                  { (masbilletes m.endpoint { P with priority := env.USER_Q }).2 with
                    nice := (masbilletes m.endpoint { P with priority := env.USER_Q }).1,
                    priority := to_unsigned m.maxprio,
                    max_priority := to_unsigned m.maxprio }).2.2 with
                priority := P.priority, max_priority := P.max_priority, nice := P.nice,
                ticketsNum := P.ticketsNum }
            else
              (schedule_process_local env st.g
                  { (masbilletes m.endpoint { P with priority := env.USER_Q }).2 with
                    nice := (masbilletes m.endpoint { P with priority := env.USER_Q }).1,
                    priority := to_unsigned m.maxprio,
                    max_priority := to_unsigned m.maxprio }).2.2),
          g := (schedule_process_local env st.g
                  { (masbilletes m.endpoint { P with priority := env.USER_Q }).2 with
                    nice := (masbilletes m.endpoint { P with priority := env.USER_Q }).1,
                    priority := to_unsigned m.maxprio,
                    max_priority := to_unsigned m.maxprio }).2.1 }
        rand_v random_v := by
  unfold do_nice
  simp only [hacc, hres, Bool.not_true, Bool.false_eq_true, if_false, ge_iff_le,
    Nat.not_le.mpr hq]

/-- The reply to the push that `do_nice` makes for the slot `P` with the new
ceiling `new_q`. -/
theorem do_nice_push_rv (env : Env) (g : Globals) (P : Schedproc) (n : Int) (new_q : Nat) :
    (schedule_process_local env g
        { (masbilletes n { P with priority := env.USER_Q }).2 with
          nice := (masbilletes n { P with priority := env.USER_Q }).1,
          priority := new_q, max_priority := new_q }).1 =
      env.sys_schedule g.kcalls P.endpoint (int_of_unsigned new_q)
        (int_of_unsigned P.time_slice) (-1) := by
  rw [schedule_process_local_rv]
  simp [masbilletes]

/-- When no addition of `masbilletes` leaves the `int` range, the balance it
leaves is the clamp of `t + n` and the value it returns is the change of the
balance. -/
theorem masbilletes_exact (n : Int) (p : Schedproc)
    (ht : -2147483646 ≤ p.ticketsNum ∧ p.ticketsNum ≤ 2147483647)
    (hn : -2147483648 ≤ n ∧ n ≤ 2147483647)
    (hs : -2147483648 ≤ p.ticketsNum + n ∧ p.ticketsNum + n ≤ 2147483647) :
    (masbilletes n p).2.ticketsNum = clamp_tickets (p.ticketsNum + n) ∧
    (masbilletes n p).1 = (masbilletes n p).2.ticketsNum - p.ticketsNum := by
  have h1 : to_int (p.ticketsNum + n) = p.ticketsNum + n := to_int_of_range _ (by omega) (by omega)
  unfold masbilletes clamp_tickets
  simp only [h1]
  by_cases hhi : p.ticketsNum + n > 50
  · have hlo : ¬ p.ticketsNum + n < 1 := by omega
    have h2 : to_int (50 - p.ticketsNum) = 50 - p.ticketsNum :=
      to_int_of_range _ (by omega) (by omega)
    have h3 : to_int (p.ticketsNum + (50 - p.ticketsNum)) = 50 :=
      by rw [to_int_of_range _ (by omega) (by omega)]; omega
    simp only [hhi, hlo, if_true, if_false, h2, h3]
    constructor
    · rw [max_eq_right (by omega), min_eq_left (by omega)]
    · trivial
  · by_cases hlo : p.ticketsNum + n < 1
    · have h2 : to_int (1 - p.ticketsNum) = 1 - p.ticketsNum :=
        to_int_of_range _ (by omega) (by omega)
      have h3 : to_int (p.ticketsNum + (1 - p.ticketsNum)) = 1 :=
        by rw [to_int_of_range _ (by omega) (by omega)]; omega
      simp only [hhi, hlo, if_true, if_false, h2, h3]
      constructor
      · rw [max_eq_left (by omega), min_eq_right (by omega)]
      · trivial
    · simp only [hhi, hlo, if_false, h1]
      constructor
      · rw [max_eq_right (by omega), min_eq_right (by omega)]
      · omega

/-- What `do_nice` does once the request is accepted, the handle resolved and
the ceiling in range: it writes a slot `X` back to the table and runs a lottery
round.  With `rv` the reply of the executor to the push, `X` has the old
ceiling, tickets and priority when `rv` is an error, and the new ceiling, the
granted tickets and the new ceiling as priority when `rv` is `OK`. -/
theorem do_nice_summary (env : Env) (st : State) (m : Message) (rand_v random_v : Nat)
    (i : Nat) (P : Schedproc)
    (hacc : env.accept_message m = true)
    (hres : sched_isokendpt env st.schedproc m.endpoint = .ok (i, P))
    (hq : to_unsigned m.maxprio < env.NR_SCHED_QUEUES) :
    ∃ X G, do_nice env st m rand_v random_v =
        realizar_loteria env { schedproc := st.schedproc.set i X, g := G } rand_v random_v ∧
      X.max_priority =
        (if env.sys_schedule st.g.kcalls P.endpoint (int_of_unsigned (to_unsigned m.maxprio))
            (int_of_unsigned P.time_slice) (-1) ≠ OK then P.max_priority
         else to_unsigned m.maxprio) ∧
      X.ticketsNum =
        (if env.sys_schedule st.g.kcalls P.endpoint (int_of_unsigned (to_unsigned m.maxprio))
            (int_of_unsigned P.time_slice) (-1) ≠ OK then P.ticketsNum
         else (masbilletes m.endpoint P).2.ticketsNum) ∧
      X.priority =
        (if env.sys_schedule st.g.kcalls P.endpoint (int_of_unsigned (to_unsigned m.maxprio))
            (int_of_unsigned P.time_slice) (-1) ≠ OK then P.priority
         else to_unsigned m.maxprio) := by
  rw [do_nice_accepted env st m rand_v random_v i P hacc hres hq]
  rw [do_nice_push_rv]
  refine ⟨_, _, rfl, ?_, ?_, ?_⟩ <;> split_ifs <;>
    simp [schedule_process_local, schedule_process_max_priority, schedule_process_ticketsNum,
      schedule_process_priority, masbilletes]

/-- What the lottery round does to a slot that has just been written to the
table. -/
theorem loteria_after_set (env : Env) (tbl : List Schedproc) (i : Nat) (hlt : i < tbl.length)
    (X : Schedproc) (G : Globals) (rand_v random_v : Nat) :
    ∃ q', (realizar_loteria env { schedproc := tbl.set i X, g := G } rand_v
        random_v).2.schedproc[i]? = some q' ∧
      q'.max_priority = X.max_priority ∧ q'.ticketsNum = X.ticketsNum ∧
      (q'.priority = X.priority ∨ (X.priority = env.USER_Q ∧ q'.priority = env.MAX_USER_Q)) := by
  obtain ⟨q', h1, h2, h3, _, _, _, h7⟩ :=
    realizar_loteria_slot env { schedproc := tbl.set i X, g := G } rand_v random_v i X
      (by simp [List.getElem?_set, hlt])
  exact ⟨q', h1, h2, h3, h7⟩

/-! ## The ceiling change (C4, C5, C6) -/

/-- C4: the claim is that `do_nice` returns the error of a failed push.  On
the code it does not: for an in-use process at priority 5 and the in-range new
ceiling 3, the executor rejects the push with `EINVAL` (-22), and `do_nice`
returns the outcome of the lottery round, here `OK`. -/
theorem C4_failed_push_returns_lottery_outcome :
    in_use (slot0 5 5 3) = true ∧
    (schedule_process_local cfg_reject (state_of [slot0 5 5 3]).g (slot0 3 3 3)).1 = -22 ∧
    (do_nice cfg_reject (state_of [slot0 5 5 3]) (set_nice_msg 0 3) 0 0).1 = OK := by
  decide

/-- C5, as stated, fails: an in-use process at `USER_Q` = 17 with 50 tickets,
new ceiling 3, the executor rejects the push; the rollback restores priority
17, and the lottery round that follows promotes the process, so that it is at
priority 16 when `do_nice` returns. -/
theorem C5_priority_not_restored :
    (schedule_process_local cfg_reject (state_of [slot0 17 17 50]).g (slot0 3 3 50)).1 = -22 ∧
    (do_nice cfg_reject (state_of [slot0 17 17 50]) (set_nice_msg 0 3) 0 0).2.schedproc.map
      Schedproc.priority = [16] := by
  decide

/-- C5, amended: when the push of `do_nice` fails, the process has its ceiling
and its tickets of before the call when `do_nice` returns, and its priority of
before the call unless that priority was `USER_Q`, in which case it is either
still `USER_Q` or `MAX_USER_Q`. -/
theorem C5_rollback (env : Env) (st : State) (m : Message) (rand_v random_v : Nat) (i : Nat)
    (P : Schedproc)
    (hacc : env.accept_message m = true)
    (hres : sched_isokendpt env st.schedproc m.endpoint = .ok (i, P))
    (hq : to_unsigned m.maxprio < env.NR_SCHED_QUEUES)
    (hfail : env.sys_schedule st.g.kcalls P.endpoint (int_of_unsigned (to_unsigned m.maxprio))
      (int_of_unsigned P.time_slice) (-1) ≠ OK) :
    ∃ P', (do_nice env st m rand_v random_v).2.schedproc[i]? = some P' ∧
      P'.max_priority = P.max_priority ∧ P'.ticketsNum = P.ticketsNum ∧
      (P'.priority = P.priority ∨
        (P.priority = env.USER_Q ∧ P'.priority = env.MAX_USER_Q)) := by
  obtain ⟨_, _, hlt⟩ := sched_isokendpt_ok env st.schedproc m.endpoint i P hres
  obtain ⟨X, G, hdo, hmax, htk, hpr⟩ := do_nice_summary env st m rand_v random_v i P hacc hres hq
  rw [if_pos hfail] at hmax htk hpr
  obtain ⟨q', h1, h2, h3, h4⟩ := loteria_after_set env st.schedproc i hlt X G rand_v random_v
  rw [hdo]
  rw [hmax] at h2
  rw [htk] at h3
  rw [hpr] at h4
  exact ⟨q', h1, h2, h3, h4⟩

/-- C5, amended, at a process at priority 17 with 50 tickets whose push is
rejected. -/
theorem C5_rollback_witness :
    ∃ P', (do_nice cfg_reject (state_of [slot0 17 17 50]) (set_nice_msg 0 3) 0 0).2.schedproc[0]?
        = some P' ∧
      P'.max_priority = (slot0 17 17 50).max_priority ∧
      P'.ticketsNum = (slot0 17 17 50).ticketsNum ∧
      (P'.priority = (slot0 17 17 50).priority ∨
        ((slot0 17 17 50).priority = cfg_reject.USER_Q ∧ P'.priority = cfg_reject.MAX_USER_Q)) :=
  C5_rollback cfg_reject (state_of [slot0 17 17 50]) (set_nice_msg 0 3) 0 0 0 (slot0 17 17 50)
    rfl rfl (by decide) (by decide)

/-- C6, as stated, fails: an in-use process with 40 tickets, new ceiling 17
(in range, and equal to `USER_Q`), the push succeeds; the lottery round that
`do_nice` runs before returning promotes the process, so that it returns with
ceiling 17 and priority 16. -/
theorem C6_priority_differs_from_ceiling :
    (schedule_process_local cfg (state_of [slot0 5 5 40]).g (slot0 17 17 40)).1 = OK ∧
    (do_nice cfg (state_of [slot0 5 5 40]) (set_nice_msg 0 17) 0 0).2.schedproc.map
      (fun p => (p.priority, p.max_priority, p.ticketsNum)) = [(16, 17, 40)] := by
  decide

/-- C6, amended: for an in-use process `P` with tickets `t` in `[1, 50]`, an
in-range new ceiling and a ticket request `n` (the value `do_nice` hands to
`masbilletes`, the endpoint of the message) such that `t + n` is an `int`, if
the push succeeds then when `do_nice` returns the ceiling is the new ceiling,
the tickets are `min(50, max(1, t + n))`, and the priority is the new ceiling
unless the new ceiling is `USER_Q`, in which case it is either `USER_Q` or
`MAX_USER_Q`. -/
theorem C6_change_ceiling (env : Env) (st : State) (m : Message) (rand_v random_v : Nat)
    (i : Nat) (P : Schedproc)
    (hacc : env.accept_message m = true)
    (hres : sched_isokendpt env st.schedproc m.endpoint = .ok (i, P))
    (hq : to_unsigned m.maxprio < env.NR_SCHED_QUEUES)
    (hok : env.sys_schedule st.g.kcalls P.endpoint (int_of_unsigned (to_unsigned m.maxprio))
      (int_of_unsigned P.time_slice) (-1) = OK)
    (ht : 1 ≤ P.ticketsNum ∧ P.ticketsNum ≤ 50)
    (hn : -2147483648 ≤ m.endpoint ∧ P.ticketsNum + m.endpoint ≤ 2147483647) :
    ∃ P', (do_nice env st m rand_v random_v).2.schedproc[i]? = some P' ∧
      P'.max_priority = to_unsigned m.maxprio ∧
      P'.ticketsNum = clamp_tickets (P.ticketsNum + m.endpoint) ∧
      (P'.priority = to_unsigned m.maxprio ∨
        (to_unsigned m.maxprio = env.USER_Q ∧ P'.priority = env.MAX_USER_Q)) := by
  obtain ⟨_, _, hlt⟩ := sched_isokendpt_ok env st.schedproc m.endpoint i P hres
  obtain ⟨X, G, hdo, hmax, htk, hpr⟩ := do_nice_summary env st m rand_v random_v i P hacc hres hq
  have hnot : ¬ (env.sys_schedule st.g.kcalls P.endpoint (int_of_unsigned (to_unsigned m.maxprio))
      (int_of_unsigned P.time_slice) (-1) ≠ OK) := fun hc => hc hok
  rw [if_neg hnot] at hmax htk hpr
  obtain ⟨q', h1, h2, h3, h4⟩ := loteria_after_set env st.schedproc i hlt X G rand_v random_v
  rw [hdo]
  rw [hmax] at h2
  rw [htk, (masbilletes_exact m.endpoint P (by omega) (by omega) (by omega)).1] at h3
  rw [hpr] at h4
  exact ⟨q', h1, h2, h3, h4⟩

/-- C6, amended, at the scenario of the specification: 40 tickets, request
+100, new ceiling 5; the process ends with 50 tickets and priority and ceiling
5. -/
theorem C6_change_ceiling_witness :
    ∃ P', (do_nice cfg (state_of (table100 (slot100 7 7 40))) (set_nice_msg 100 5) 0
        0).2.schedproc[100]? = some P' ∧
      P'.max_priority = 5 ∧ P'.ticketsNum = 50 ∧ P'.priority = 5 := by
  obtain ⟨q', h1, h2, h3, h4⟩ :=
    C6_change_ceiling cfg (state_of (table100 (slot100 7 7 40))) (set_nice_msg 100 5) 0 0 100
      (slot100 7 7 40) rfl rfl (by decide) (by decide) (by decide) (by decide)
  refine ⟨q', h1, h2, ?_, ?_⟩
  · rw [h3]
    decide
  · rcases h4 with h | ⟨h, _⟩
    · exact h
    · exact absurd h (by decide)

/-! ## The ticket grant (C7) -/

/-- C7, as stated, fails: with balance 50 and request 2147483647 the sum
leaves the `int` range; `masbilletes` leaves 1 ticket and returns -49, where
the claim has `min(50, max(1, t + n))` = 50. -/
theorem C7_large_request_wraps :
    (masbilletes 2147483647 (slot0 5 5 50)).2.ticketsNum = 1 ∧
    (masbilletes 2147483647 (slot0 5 5 50)).1 = -49 ∧
    clamp_tickets ((slot0 5 5 50).ticketsNum + 2147483647) = 50 := by
  decide

/-- C7, amended: for every balance `t` (also one outside `[1, 50]`) and every
request `n` of either sign such that `t`, `n`, `t + n` and `1 - t` are `int`
values, `masbilletes` leaves `min(50, max(1, t + n))` tickets, which is in
`[1, 50]`, and returns the change of the balance; the balance then stays in
`[1, 50]` under every further sequence of calls. -/
theorem C7_grant_tickets (n : Int) (p : Schedproc)
    (ht : -2147483646 ≤ p.ticketsNum ∧ p.ticketsNum ≤ 2147483647)
    (hn : -2147483648 ≤ n ∧ n ≤ 2147483647)
    (hs : -2147483648 ≤ p.ticketsNum + n ∧ p.ticketsNum + n ≤ 2147483647) :
    (masbilletes n p).2.ticketsNum = clamp_tickets (p.ticketsNum + n) ∧
    (masbilletes n p).1 = (masbilletes n p).2.ticketsNum - p.ticketsNum ∧
    (1 ≤ (masbilletes n p).2.ticketsNum ∧ (masbilletes n p).2.ticketsNum ≤ 50) ∧
    ∀ requests : List Int,
      1 ≤ (grant_all (masbilletes n p).2 requests).ticketsNum ∧
      (grant_all (masbilletes n p).2 requests).ticketsNum ≤ 50 :=
  ⟨(masbilletes_exact n p ht hn hs).1, (masbilletes_exact n p ht hn hs).2,
    masbilletes_range n p,
    fun requests => grant_all_range_from requests _ (masbilletes_range n p)⟩

/-- C7, amended, at balance 120 (above the range) and request -30. -/
theorem C7_grant_tickets_witness :
    (masbilletes (-30) (slot0 5 5 120)).2.ticketsNum
      = clamp_tickets ((slot0 5 5 120).ticketsNum + -30) ∧
    (masbilletes (-30) (slot0 5 5 120)).1
      = (masbilletes (-30) (slot0 5 5 120)).2.ticketsNum - (slot0 5 5 120).ticketsNum ∧
    (1 ≤ (masbilletes (-30) (slot0 5 5 120)).2.ticketsNum ∧
      (masbilletes (-30) (slot0 5 5 120)).2.ticketsNum ≤ 50) ∧
    ∀ requests : List Int,
      1 ≤ (grant_all (masbilletes (-30) (slot0 5 5 120)).2 requests).ticketsNum ∧
      (grant_all (masbilletes (-30) (slot0 5 5 120)).2 requests).ticketsNum ≤ 50 :=
  C7_grant_tickets (-30) (slot0 5 5 120) (by decide) (by decide) (by decide)

/-! ## The demotion step (C8) -/

/-- C8, as stated, fails: an in-use process at priority 19, above
`MIN_USER_Q` = 18, is left at 19 by the demotion step, where the claim has
`min(19 + 1, 18)` = 18. -/
theorem C8_above_band_not_clamped :
    in_use (slot0 19 19 3) = true ∧
    (do_noquantum_demote cfg (slot0 19 19 3)).priority = 19 ∧
    min ((slot0 19 19 3).priority + 1) cfg.MIN_USER_Q = 18 := by
  decide

/-- C8, amended: after the demotion step of `do_noquantum` a process that was
at a priority `p` up to `MIN_USER_Q` is at `min(p + 1, MIN_USER_Q)`, and a
process that was above `MIN_USER_Q` is still at `p`; the other fields of the
slot are as before. -/
theorem C8_demotion (env : Env) (rmp : Schedproc) :
    (do_noquantum_demote env rmp).priority =
      (if rmp.priority ≤ env.MIN_USER_Q then min (rmp.priority + 1) env.MIN_USER_Q
       else rmp.priority) ∧
    do_noquantum_demote env rmp = { rmp with priority := (do_noquantum_demote env rmp).priority }
    := by
  unfold do_noquantum_demote
  constructor
  · split_ifs <;> simp only [Nat.min_def] <;> (try split_ifs) <;> omega
  · split_ifs <;> rfl

/-! ## `do_start_scheduling`: facts -/

/-- A slot whose flags are `IN_USE` is in use. -/
theorem in_use_of_flags (p : Schedproc) (h : p.flags = IN_USE) : in_use p = true := by
  unfold in_use
  rw [h]
  decide


/-- The CPU that `pick_cpu` writes on a build without SMP, and on an SMP build
for a single processor or a system process. -/
theorem pick_cpu_cpu (env : Env) (g : Globals) (p : Schedproc) :
    (env.CONFIG_SMP = false → (pick_cpu env g p).2.cpu = 0) ∧
    (env.CONFIG_SMP = true → (env.processors_count = 1 ∨ p.parent = env.RS_PROC_NR) →
      (pick_cpu env g p).2.cpu = env.bsp_id) := by
  unfold pick_cpu is_system_proc
  constructor
  · intro h
    simp [h]
  · intro h hc
    rcases hc with hc | hc
    · simp [h, hc]
    · simp only [h, hc, if_true, decide_True]
      split_ifs <;> rfl

/-- The slot that `schedule_process` leaves is the one `pick_cpu` leaves. -/
theorem schedule_process_slot (env : Env) (g : Globals) (p : Schedproc) (flags : Nat) :
    (schedule_process env g p flags).2.2 = (pick_cpu env g p).2 := by
  unfold schedule_process
  rfl

/-- The slot with which the placement loop ends differs from the slot it
starts with in the field `cpu` only, and that field is the one `pick_cpu`
writes. -/
theorem start_retry_slot (env : Env) :
    ∀ (fuel : Nat) (g : Globals) (rmp : Schedproc) (rv : Int) (g2 : Globals) (rmp2 : Schedproc),
      start_retry env fuel g rmp = some (rv, g2, rmp2) →
      rmp2 = { rmp with cpu := rmp2.cpu } ∧
      (env.CONFIG_SMP = false → rmp2.cpu = 0) ∧
      (env.CONFIG_SMP = true → (env.processors_count = 1 ∨ rmp.parent = env.RS_PROC_NR) →
        rmp2.cpu = env.bsp_id) := by
  intro fuel
  induction fuel with
  | zero =>
    intro g rmp rv g2 rmp2 h
    simp [start_retry] at h
  | succ k ih =>
    intro g rmp rv g2 rmp2 h
    unfold start_retry at h
    simp only at h
    split_ifs at h with hbad
    · obtain ⟨h1, h2, h3⟩ := ih _ _ rv g2 rmp2 h
      have hpc := pick_cpu_frame env
        { (schedule_process env g rmp SCHEDULE_CHANGE_ALL).2.1 with
          cpu_proc := (schedule_process env g rmp SCHEDULE_CHANGE_ALL).2.1.cpu_proc.set
            (schedule_process env g rmp SCHEDULE_CHANGE_ALL).2.2.cpu CPU_DEAD }
        (schedule_process env g rmp SCHEDULE_CHANGE_ALL).2.2
      have hsp := schedule_process_frame env g rmp SCHEDULE_CHANGE_ALL
      refine ⟨?_, h2, ?_⟩
      · rw [hpc, hsp] at h1
        exact h1
      · intro hs hc
        apply h3 hs
        rw [hpc, hsp]
        exact hc
    · have hrm : rmp2 = (schedule_process env g rmp SCHEDULE_CHANGE_ALL).2.2 := by
        have hsome := Option.some.inj h
        rw [hsome]
      rw [hrm, schedule_process_slot]
      exact ⟨pick_cpu_frame env g rmp, (pick_cpu_cpu env g rmp).1, (pick_cpu_cpu env g rmp).2⟩

/-- A handle that resolves as free names a slot of the table that is not in
use; an error of the resolution is one of the three error numbers. -/
theorem sched_isemtyendpt_cases (env : Env) (tbl : List Schedproc) (e : Int) :
    (∃ rv, sched_isemtyendpt env tbl e = .error rv ∧
      (rv = env.EBADEPT ∨ rv = env.EINVAL ∨ rv = env.EDEADEPT)) ∨
    (∃ p, sched_isemtyendpt env tbl e = .ok ((env.ENDPOINT_P e).toNat, p) ∧
      0 ≤ env.ENDPOINT_P e ∧ tbl[(env.ENDPOINT_P e).toNat]? = some p ∧ in_use p = false ∧
      (env.ENDPOINT_P e).toNat < tbl.length) := by
  unfold sched_isemtyendpt
  simp only
  by_cases h1 : env.ENDPOINT_P e < 0
  · left
    exact ⟨env.EBADEPT, by simp [h1], Or.inl rfl⟩
  · simp only [h1, if_false]
    cases hp : tbl[(env.ENDPOINT_P e).toNat]? with
    | none =>
      left
      exact ⟨env.EINVAL, rfl, Or.inr (Or.inl rfl)⟩
    | some p =>
      by_cases hu : in_use p = true
      · left
        exact ⟨env.EDEADEPT, by simp [hu], Or.inr (Or.inr rfl)⟩
      · right
        have hlt : (env.ENDPOINT_P e).toNat < tbl.length := by
          by_contra hc
          rw [List.getElem?_eq_none (by omega)] at hp
          cases hp
        refine ⟨p, by simp [hu], by omega, rfl, by simpa using hu, hlt⟩

/-- The parent of a bootstrap registration is the slot being registered, which
is not in use yet: it does not resolve. -/
theorem sched_isokendpt_self (env : Env) (tbl : List Schedproc) (e : Int) (rmp : Schedproc)
    (h0 : 0 ≤ env.ENDPOINT_P e) (hlt : (env.ENDPOINT_P e).toNat < tbl.length)
    (hend : rmp.endpoint = e) (hfree : in_use rmp = false) :
    sched_isokendpt env (tbl.set (env.ENDPOINT_P e).toNat rmp) e = .error env.EDEADEPT := by
  unfold sched_isokendpt
  have hneg : ¬ env.ENDPOINT_P e < 0 := by omega
  simp [hneg, List.getElem?_set, hlt, hend, hfree]

/-- A successful end of `do_start_scheduling` after the `switch`: the slot
written to the table is the populated slot, marked in use, with the CPU that
`pick_cpu` chose. -/
theorem start_take_over_ok (env : Env) (fuel : Nat) (st : State) (i : Nat) (rmp : Schedproc)
    (m m' : Message) (st' : State) (hlt : i < st.schedproc.length)
    (h : start_take_over env fuel st i rmp m = some (OK, m', st')) :
    ∃ P', st'.schedproc[i]? = some P' ∧
      P' = { rmp with flags := IN_USE, cpu := P'.cpu } ∧
      (env.CONFIG_SMP = false → P'.cpu = 0) ∧
      (env.CONFIG_SMP = true → (env.processors_count = 1 ∨ rmp.parent = env.RS_PROC_NR) →
        P'.cpu = env.bsp_id) := by
  unfold start_take_over at h
  simp only at h
  split_ifs at h with hrv
  · have h1 := Option.some.inj h
    exact absurd (congrArg Prod.fst h1) hrv
  · split at h
    · cases h
    · rename_i rv g2 rmp2 heq
      split_ifs at h with hrv2
      · have h1 := Option.some.inj h
        exact absurd (congrArg Prod.fst h1) hrv2
      · have h1 := Option.some.inj h
        have hst : st' = { schedproc := st.schedproc.set i rmp2, g := g2 } :=
          (congrArg (fun r => r.2.2) h1).symm
        obtain ⟨f1, f2, f3⟩ := start_retry_slot env fuel _ _ rv g2 rmp2 heq
        have hpc := pick_cpu_frame env { st.g with kcalls := st.g.kcalls + 1 }
          { rmp with flags := IN_USE }
        refine ⟨rmp2, by simp [hst, List.getElem?_set, hlt], ?_, f2, ?_⟩
        · rw [hpc] at f1
          exact f1
        · intro hs hc
          apply f3 hs
          rw [hpc]
          exact hc

/-! ## Registration (C9, C10) -/

/-- C9: the claim is that every in-use process of a reachable state has its
priority in `[0, MIN_USER_Q]`.  On the code, from a table whose only slot is
free, one StartScheduling event of kind `SCHEDULING_START` with `maxprio` 1000
leaves an in-use process at priority 1000, with `MIN_USER_Q` = 18: when the
executor accepts the push (return `OK`) and also when it rejects it (return
-22), since the slot is marked in use before the push and `maxprio` is not
checked against `NR_SCHED_QUEUES` as it is in `do_nice`. -/
theorem C9_start_registers_priority_out_of_range :
    (do_start_scheduling cfg 1 (state_of [free_slot])
        (start_msg .SCHEDULING_START 0 1 1000 200)).map
      (fun r => (r.1, r.2.2.schedproc.map (fun p => (in_use p, p.priority))))
      = some (OK, [(true, 1000)]) ∧
    (do_start_scheduling cfg_reject 1 (state_of [free_slot])
        (start_msg .SCHEDULING_START 0 1 1000 200)).map
      (fun r => (r.1, r.2.2.schedproc.map (fun p => (in_use p, p.priority))))
      = some (-22, [(true, 1000)]) ∧
    cfg.MIN_USER_Q = 18 := by
  decide

/-- C10: the claim is that a process registered as its own parent ends at
`USER_Q` with the quantum `DEFAULT_USER_TIME_SLICE` on the primary CPU, with
either message kind.  The bootstrap branch of `do_start_scheduling` writes
these three values, and the code that follows loses them: with a message of
kind `SCHEDULING_START`, ceiling 5 and quantum 77, the `switch` overwrites
priority and quantum and the registration returns `OK` with priority 5 and
quantum 77, not `USER_Q` = 17 and 200; on a two-CPU SMP configuration
`pick_cpu` moves the process to CPU 1, not the primary CPU 0; and with a
message of kind `SCHEDULING_INHERIT` the parent, the slot being registered, is
not in use yet, so the registration fails with `EDEADEPT` (-302) and the slot
stays free with the bootstrap values 17 and 200 in it. -/
theorem C10_bootstrap_start_overrides :
    (do_start_scheduling cfg 1 (state_of [free_slot])
        (start_msg .SCHEDULING_START 0 0 5 77)).map
      (fun r => (r.1, r.2.2.schedproc.map (fun p => (p.priority, p.time_slice))))
      = some (OK, [(5, 77)]) ∧
    (do_start_scheduling cfg_smp 1 (state_smp [free_slot])
        (start_msg .SCHEDULING_START 0 0 5 77)).map
      (fun r => (r.1, r.2.2.schedproc.map (fun p => (p.priority, p.time_slice, p.cpu))))
      = some (OK, [(5, 77, 1)]) ∧
    cfg_smp.bsp_id = 0 ∧
    (do_start_scheduling cfg 1 (state_of [free_slot])
        (start_msg .SCHEDULING_INHERIT 0 0 5 77)).map
      (fun r => (r.1, r.2.2.schedproc.map (fun p => (in_use p, p.priority, p.time_slice))))
      = some (-302, [(false, 17, 200)]) ∧
    cfg.USER_Q = 17 ∧ DEFAULT_USER_TIME_SLICE = 200 := by
  decide

/-- What a registration of a process as its own parent leaves when it returns
`OK`: the message kind is `SCHEDULING_START` (with `SCHEDULING_INHERIT` the
parent, the slot being registered, does not resolve as in use), and the slot is
in use with priority and ceiling the `maxprio` of the message, quantum the
quantum of the message and 3 tickets; its CPU is 0 on a build without SMP, and
the primary CPU on an SMP build when there is one processor or the process is
a system process.  The values of the bootstrap branch do not survive. -/
theorem bootstrap_start_fields (env : Env) (fuel : Nat) (st : State) (m m' : Message) (st' : State)
    (herr : env.EPERM ≠ OK ∧ env.EBADEPT ≠ OK ∧ env.EINVAL ≠ OK ∧ env.EDEADEPT ≠ OK)
    (hboot : m.endpoint = m.parent)
    (hsucc : do_start_scheduling env fuel st m = some (OK, m', st')) :
    m.m_type = .SCHEDULING_START ∧
    ∃ P', st'.schedproc[(env.ENDPOINT_P m.endpoint).toNat]? = some P' ∧
      in_use P' = true ∧ P'.endpoint = m.endpoint ∧
      P'.priority = to_unsigned m.maxprio ∧ P'.max_priority = to_unsigned m.maxprio ∧
      P'.time_slice = to_unsigned m.quantum ∧ P'.ticketsNum = 3 ∧
      (env.CONFIG_SMP = false → P'.cpu = 0) ∧
      (env.CONFIG_SMP = true → (env.processors_count = 1 ∨ m.parent = env.RS_PROC_NR) →
        P'.cpu = env.bsp_id) := by
  unfold do_start_scheduling at hsucc
  by_cases hacc : env.accept_message m = true
  · simp only [hacc, Bool.not_true, Bool.false_eq_true, if_false] at hsucc
    rcases sched_isemtyendpt_cases env st.schedproc m.endpoint with
      ⟨rv, he, hrv⟩ | ⟨p, he, h0, hp, hfree, hlt⟩
    · rw [he] at hsucc
      simp only at hsucc
      have h1 : rv = OK := congrArg Prod.fst (Option.some.inj hsucc)
      rcases hrv with h | h | h
      · exact absurd (h ▸ h1) herr.2.1
      · exact absurd (h ▸ h1) herr.2.2.1
      · exact absurd (h ▸ h1) herr.2.2.2
    · rw [he] at hsucc
      simp only [hboot, if_true] at hsucc
      rw [hboot] at hlt h0
      rw [hboot]
      cases hk : m.m_type with
      | SCHEDULING_START =>
        rw [hk] at hsucc
        simp only at hsucc
        obtain ⟨P', g1, g2, g3, g4⟩ := start_take_over_ok env fuel st _ _ m m' st' hlt hsucc
        refine ⟨rfl, P', g1, ?_, ?_, ?_, ?_, ?_, ?_, g3, g4⟩
        · rw [g2]; exact in_use_of_flags _ rfl
        · rw [g2]
        · rw [g2]
        · rw [g2]
        · rw [g2]
        · rw [g2]
      | SCHEDULING_INHERIT =>
        rw [hk] at hsucc
        simp only at hsucc
        rw [sched_isokendpt_self env st.schedproc m.parent _ h0 hlt rfl
          (by simpa [in_use] using hfree)] at hsucc
        simp only at hsucc
        have h1 : env.EDEADEPT = OK := congrArg Prod.fst (Option.some.inj hsucc)
        exact absurd h1 herr.2.2.2
  · simp only [hacc, Bool.not_false, if_true] at hsucc
    have h1 : env.EPERM = OK := congrArg Prod.fst (Option.some.inj hsucc)
    exact absurd h1 herr.1

/-- The registration of the process with endpoint 0 as its own parent, with
ceiling 5 and quantum 77. -/
theorem bootstrap_start_fields_example :
    do_start_scheduling cfg 1 (state_of [free_slot]) (start_msg .SCHEDULING_START 0 0 5 77)
      = some (OK, { start_msg .SCHEDULING_START 0 0 5 77 with scheduler := 4 },
          state_registered) ∧
    ∃ P', state_registered.schedproc[0]? = some P' ∧
      in_use P' = true ∧ P'.priority = 5 ∧ P'.max_priority = 5 ∧ P'.time_slice = 77 ∧
      P'.ticketsNum = 3 ∧ P'.cpu = 0 := by
  have hrun : do_start_scheduling cfg 1 (state_of [free_slot])
      (start_msg .SCHEDULING_START 0 0 5 77)
      = some (OK, { start_msg .SCHEDULING_START 0 0 5 77 with scheduler := 4 },
          state_registered) := by decide
  obtain ⟨_, P', h1, h2, _, h4, h5, h6, h7, h8, _⟩ :=
    bootstrap_start_fields cfg 1 (state_of [free_slot]) (start_msg .SCHEDULING_START 0 0 5 77)
      { start_msg .SCHEDULING_START 0 0 5 77 with scheduler := 4 } state_registered
      (by decide) rfl hrun
  exact ⟨hrun, P', h1, h2, h4, h5, h6, h7, h8 rfl⟩

/-! ## The outcome of a lottery round: facts -/

/-- A property of the carried data that every run of the body keeps holds
after the loop when it holds before it. -/
theorem for_each_slot_inv {σ : Type} (body : σ → Schedproc → σ × Schedproc) (I : σ → Prop)
    (hI : ∀ s q, I s → I (body s q).1) :
    ∀ (l : List Schedproc) (s : σ), I s → I (for_each_slot body s l).1 := by
  intro l
  induction l with
  | nil => intro s hs; exact hs
  | cons a l ih =>
    intro s hs
    simp only [for_each_slot]
    exact ih _ (hI s a hs)

/-- The flag of the scan is `OK` or -1 after a step when it is before it. -/
theorem scan_step_flag (env : Env) (s : Scan) (q : Schedproc)
    (h : s.flag = OK ∨ s.flag = -1) :
    (scan_step env s q).1.flag = OK ∨ (scan_step env s q).1.flag = -1 := by
  unfold scan_step
  by_cases he : (in_use q && PROCESS_IN_USER_Q env q && decide (env.USER_Q = q.priority)) = true
  · simp only [he, if_true]
    by_cases h0 : s.TicketGanador ≥ 0
    · simp only [h0, if_true]
      by_cases h1 : to_int (s.TicketGanador - q.ticketsNum) < 0
      · simp only [h1, if_true]
        split_ifs <;> exact Or.inl rfl
      · simp only [h1, if_false]
        split_ifs <;> exact h
    · simp only [h0, if_false]
      split_ifs <;> exact h
  · simp only [he]
    exact h

/-- A lottery round returns `OK` or -1. -/
theorem realizar_loteria_rv (env : Env) (st : State) (rand_v random_v : Nat) :
    (realizar_loteria env st rand_v random_v).1 = OK ∨
    (realizar_loteria env st rand_v random_v).1 = -1 := by
  unfold realizar_loteria
  simp only
  split_ifs
  · exact for_each_slot_inv (scan_step env) (fun s => s.flag = OK ∨ s.flag = -1)
      (scan_step_flag env) st.schedproc _ (Or.inr rfl)
  · exact Or.inl rfl

/-! ## The range check of `do_nice` (C15) -/

/-- C15: for an accepted request that names an in-use process, with `maxprio`
an `int` and `NR_SCHED_QUEUES` at most `2^31`: when the requested ceiling is
outside `[0, NR_SCHED_QUEUES - 1]`, negative values included, `do_nice` returns
`EINVAL` and the state (the whole process table, the CPU table, the count of
kernel calls) is the one before the call, whatever the lottery draws are; when
it is inside the range, what `do_nice` returns is the outcome of the lottery
round it runs on the updated table, `OK` or -1. -/
theorem C15_ceiling_range_check (env : Env) (st : State) (m : Message) (rand_v random_v : Nat)
    (i : Nat) (P : Schedproc)
    (hacc : env.accept_message m = true)
    (hres : sched_isokendpt env st.schedproc m.endpoint = .ok (i, P))
    (hint : -2147483648 ≤ m.maxprio ∧ m.maxprio ≤ 2147483647)
    (hQ : env.NR_SCHED_QUEUES ≤ 2147483648) :
    (¬ (0 ≤ m.maxprio ∧ m.maxprio < (env.NR_SCHED_QUEUES : Int)) →
      do_nice env st m rand_v random_v = (env.EINVAL, st)) ∧
    ((0 ≤ m.maxprio ∧ m.maxprio < (env.NR_SCHED_QUEUES : Int)) →
      (∃ X G, do_nice env st m rand_v random_v =
        realizar_loteria env { schedproc := st.schedproc.set i X, g := G } rand_v random_v) ∧
      ((do_nice env st m rand_v random_v).1 = OK ∨
        (do_nice env st m rand_v random_v).1 = -1)) := by
  constructor
  · intro hout
    have hq : env.NR_SCHED_QUEUES ≤ to_unsigned m.maxprio := by
      unfold to_unsigned
      omega
    unfold do_nice
    simp only [hacc, hres, Bool.not_true, Bool.false_eq_true, if_false, ge_iff_le, hq, if_true]
  · intro hin
    have hq : to_unsigned m.maxprio < env.NR_SCHED_QUEUES := by
      unfold to_unsigned
      omega
    obtain ⟨X, G, hdo, _⟩ := do_nice_summary env st m rand_v random_v i P hacc hres hq
    refine ⟨⟨X, G, hdo⟩, ?_⟩
    rw [hdo]
    exact realizar_loteria_rv env _ rand_v random_v

/-- C15 at a process at priority 5: the requested ceilings -1 and 19 are
rejected with `EINVAL` and nothing changes; the requested ceiling 18 is not
rejected. -/
theorem C15_ceiling_range_check_witness :
    do_nice cfg (state_of [slot0 5 5 3]) (set_nice_msg 0 (-1)) 0 0
      = (cfg.EINVAL, state_of [slot0 5 5 3]) ∧
    do_nice cfg (state_of [slot0 5 5 3]) (set_nice_msg 0 19) 7 9
      = (cfg.EINVAL, state_of [slot0 5 5 3]) ∧
    ((do_nice cfg (state_of [slot0 5 5 3]) (set_nice_msg 0 18) 0 0).1 = OK ∨
      (do_nice cfg (state_of [slot0 5 5 3]) (set_nice_msg 0 18) 0 0).1 = -1) :=
  ⟨(C15_ceiling_range_check cfg (state_of [slot0 5 5 3]) (set_nice_msg 0 (-1)) 0 0 0
      (slot0 5 5 3) rfl (by rfl) (by decide) (by decide)).1 (by decide),
   (C15_ceiling_range_check cfg (state_of [slot0 5 5 3]) (set_nice_msg 0 19) 7 9 0
      (slot0 5 5 3) rfl (by rfl) (by decide) (by decide)).1 (by decide),
   ((C15_ceiling_range_check cfg (state_of [slot0 5 5 3]) (set_nice_msg 0 18) 0 0 0
      (slot0 5 5 3) rfl (by rfl) (by decide) (by decide)).2 (by decide)).2⟩

/-! ## `do_noquantum`: facts -/

/-- Only the field `priority` of the slot is written by the demotion step. -/
theorem do_noquantum_demote_frame (env : Env) (p : Schedproc) :
    do_noquantum_demote env p = { p with priority := (do_noquantum_demote env p).priority } := by
  unfold do_noquantum_demote
  split_ifs <;> rfl

/-- The body of `do_noquantum` once the sender is resolved: when the push fails
the handler returns its error with the demoted slot in the table; when it
succeeds the handler returns what the lottery round returns. -/
theorem do_noquantum_resolved (env : Env) (st : State) (m : Message) (rand_v random_v : Nat)
    (i : Nat) (P : Schedproc)
    (hres : sched_isokendpt env st.schedproc m.m_source = .ok (i, P)) :
    do_noquantum env st m rand_v random_v =
      if (schedule_process_local env st.g (do_noquantum_demote env P)).1 ≠ OK then
        ((schedule_process_local env st.g (do_noquantum_demote env P)).1,
          { schedproc := st.schedproc.set i
              (schedule_process_local env st.g (do_noquantum_demote env P)).2.2,
            g := (schedule_process_local env st.g (do_noquantum_demote env P)).2.1 })
      else
        realizar_loteria env
          { schedproc := st.schedproc.set i
              (schedule_process_local env st.g (do_noquantum_demote env P)).2.2,
            g := (schedule_process_local env st.g (do_noquantum_demote env P)).2.1 }
          rand_v random_v := by
  unfold do_noquantum
  simp only [hres]
  split_ifs with h1 h2
  · rfl
  · rfl
  · have h3 : (realizar_loteria env
        { schedproc := st.schedproc.set i
            (schedule_process_local env st.g (do_noquantum_demote env P)).2.2,
          g := (schedule_process_local env st.g (do_noquantum_demote env P)).2.1 }
        rand_v random_v).1 = OK := by
      by_contra hc
      exact h2 hc
    rw [← h3]

/-! ## The no-winner outcome (C14) -/

/-- Against an executor that answers every push with `EBADCPU`, no number of
calls of `schedule_process` ends the placement loop. -/
theorem start_retry_rejecting (env : Env)
    (hrej : ∀ k e p q c, env.sys_schedule k e p q c = env.EBADCPU) :
    ∀ (fuel : Nat) (g : Globals) (rmp : Schedproc), start_retry env fuel g rmp = none := by
  intro fuel
  induction fuel with
  | zero => intro g rmp; rfl
  | succ k ih =>
    intro g rmp
    unfold start_retry
    have h : (schedule_process env g rmp SCHEDULE_CHANGE_ALL).1 = env.EBADCPU := by
      unfold schedule_process
      exact hrej _ _ _ _ _
    simp only [h, if_true]
    exact ih _ _

/-- C20: the claim is that the placement loop of `do_start_scheduling` ends
with a failure after a number of retries bounded in the processor count when
the executor rejects every CPU.  On the code it does not end: for every
processor count `n` and every bound `fuel` on the number of calls of
`schedule_process`, the registration of a process on a free slot has not
returned, because `pick_cpu` falls back to the primary CPU again and again and
the loop has no exit for the case that no CPU is left. -/
theorem C20_placement_loop_never_ends (n fuel : Nat) :
    do_start_scheduling (cfg_badcpu n) fuel (state_smp [free_slot])
      (start_msg .SCHEDULING_START 0 1 5 200) = none := by
  have hr := start_retry_rejecting (cfg_badcpu n) (fun _ _ _ _ _ => rfl)
  have hfree : sched_isemtyendpt (cfg_badcpu n) (state_smp [free_slot]).schedproc
      (start_msg .SCHEDULING_START 0 1 5 200).endpoint = .ok (0, free_slot) := by
    have h1 : (cfg_badcpu n).ENDPOINT_P (start_msg .SCHEDULING_START 0 1 5 200).endpoint = 0 := by
      show endpoint_slot 0 = 0
      decide
    have h2 : in_use free_slot = false := by decide
    unfold sched_isemtyendpt
    simp [h1, h2, state_smp]
  have hacc : (cfg_badcpu n).accept_message (start_msg .SCHEDULING_START 0 1 5 200) = true := rfl
  have hctl : ∀ k e, (cfg_badcpu n).sys_schedctl k e = OK := fun _ _ => rfl
  unfold do_start_scheduling
  simp only [hacc, hfree, Bool.not_true, Bool.false_eq_true, if_false]
  have hk : (start_msg .SCHEDULING_START 0 1 5 200).m_type = .SCHEDULING_START := rfl
  simp only [hk]
  unfold start_take_over
  simp only [hctl, hr, ne_eq, not_true_eq_false, if_false]

/-! ## The CPU counters (C16) -/

/-- C16: the claim is that the counter of a live CPU is the number of in-use
non-privileged processes assigned to it, and that a StartScheduling followed
by a StopScheduling of the same process restores the CPU table.  On the code,
on two CPUs with counters `[0, 0]` and a free table, the registration of one
non-privileged process returns `OK` with the process on CPU 1 and the counters
at `[0, 2]` (`pick_cpu` runs once in `do_start_scheduling` and once more in
`schedule_process`), and the StopScheduling of that process returns `OK` with
a free table and the counters at `[0, 1]`. -/
theorem C16_counters_drift :
    (do_start_scheduling cfg_smp 1 (state_smp [free_slot])
        (start_msg .SCHEDULING_START 0 1 5 200)).map
      (fun r => (r.1, r.2.2.g.cpu_proc,
        r.2.2.schedproc.map (fun p => (in_use p, is_system_proc cfg_smp p, p.cpu))))
      = some (OK, [0, 2], [(true, false, 1)]) ∧
    (do_start_scheduling cfg_smp 1 (state_smp [free_slot])
        (start_msg .SCHEDULING_START 0 1 5 200)).map
      (fun r =>
        ((do_stop_scheduling cfg_smp r.2.2 (set_nice_msg 0 0)).1,
         (do_stop_scheduling cfg_smp r.2.2 (set_nice_msg 0 0)).2.g.cpu_proc,
         (do_stop_scheduling cfg_smp r.2.2 (set_nice_msg 0 0)).2.schedproc.map in_use))
      = some (OK, [0, 1], [false]) := by
  decide

/-! ## `pick_cpu`: the scan of the CPU table -/

theorem CPU_DEAD_val : CPU_DEAD = 4294967295 := by decide

/-- One step of the scan with the macro `cpu_is_available` evaluated: on an
`unsigned` counter the test `>= 0` is always true. -/
theorem pick_cpu_step_eq (env : Env) (cp : List Nat) (s : Nat × Nat) (c : Nat) :
    pick_cpu_step env cp s c =
      if c ≠ env.bsp_id ∧ s.2 > cp.getD c 0 then (c, cp.getD c 0) else s := by
  unfold pick_cpu_step cpu_is_available
  simp

/-- What the scan of the first `n` CPUs has found: either it is still at the
primary CPU, and then no other CPU among them has a counter below `CPU_DEAD`;
or it is at a CPU other than the primary one, whose counter is below
`CPU_DEAD`, is the least among the CPUs other than the primary one, and is
not matched at a lower index. -/
theorem pick_cpu_fold_inv (env : Env) (cp : List Nat) : ∀ n : Nat,
    (((List.range n).foldl (pick_cpu_step env cp) (env.bsp_id, CPU_DEAD)
        = (env.bsp_id, CPU_DEAD)) ∧
      ∀ c, c < n → c ≠ env.bsp_id → CPU_DEAD ≤ cp.getD c 0) ∨
    ((((List.range n).foldl (pick_cpu_step env cp) (env.bsp_id, CPU_DEAD)).1 ≠ env.bsp_id) ∧
      ((List.range n).foldl (pick_cpu_step env cp) (env.bsp_id, CPU_DEAD)).1 < n ∧
      ((List.range n).foldl (pick_cpu_step env cp) (env.bsp_id, CPU_DEAD)).2 =
        cp.getD ((List.range n).foldl (pick_cpu_step env cp) (env.bsp_id, CPU_DEAD)).1 0 ∧
      ((List.range n).foldl (pick_cpu_step env cp) (env.bsp_id, CPU_DEAD)).2 < CPU_DEAD ∧
      ∀ c, c < n → c ≠ env.bsp_id →
        cp.getD ((List.range n).foldl (pick_cpu_step env cp) (env.bsp_id, CPU_DEAD)).1 0
            ≤ cp.getD c 0 ∧
        (cp.getD c 0 =
            cp.getD ((List.range n).foldl (pick_cpu_step env cp) (env.bsp_id, CPU_DEAD)).1 0 →
          ((List.range n).foldl (pick_cpu_step env cp) (env.bsp_id, CPU_DEAD)).1 ≤ c)) := by
  intro n
  induction n with
  | zero =>
    left
    exact ⟨rfl, fun c hc => absurd hc (Nat.not_lt_zero c)⟩
  | succ n ih =>
    rw [List.range_succ, List.foldl_append]
    simp only [List.foldl_cons, List.foldl_nil]
    generalize (List.range n).foldl (pick_cpu_step env cp) (env.bsp_id, CPU_DEAD) = S at ih ⊢
    obtain ⟨cpu, load⟩ := S
    rw [pick_cpu_step_eq]
    simp only at ih ⊢
    rcases ih with ⟨hS, hall⟩ | ⟨h1, h2, h3, h4, h5⟩
    · have hcpu : cpu = env.bsp_id := congrArg Prod.fst hS
      have hload : load = CPU_DEAD := congrArg Prod.snd hS
      by_cases hc : n ≠ env.bsp_id ∧ load > cp.getD n 0
      · right
        rw [if_pos hc]
        dsimp only
        refine ⟨hc.1, Nat.lt_succ_self n, rfl, by omega, ?_⟩
        intro c hcn hcb
        by_cases hcn2 : c = n
        · subst hcn2
          exact ⟨Nat.le_refl _, fun _ => Nat.le_refl _⟩
        · have := hall c (by omega) hcb
          constructor
          · omega
          · intro heq
            omega
      · left
        rw [if_neg hc]
        refine ⟨hS, ?_⟩
        intro c hcn hcb
        by_cases hcn2 : c = n
        · subst hcn2
          by_contra hlt
          exact hc ⟨hcb, by omega⟩
        · exact hall c (by omega) hcb
    · right
      by_cases hc : n ≠ env.bsp_id ∧ load > cp.getD n 0
      · rw [if_pos hc]
        dsimp only
        refine ⟨hc.1, Nat.lt_succ_self n, rfl, by omega, ?_⟩
        intro c hcn hcb
        by_cases hcn2 : c = n
        · subst hcn2
          exact ⟨Nat.le_refl _, fun _ => Nat.le_refl _⟩
        · have h6 := h5 c (by omega) hcb
          constructor
          · omega
          · intro heq
            omega
      · rw [if_neg hc]
        dsimp only
        refine ⟨h1, by omega, h3, h4, ?_⟩
        intro c hcn hcb
        by_cases hcn2 : c = n
        · subst hcn2
          have hle : load ≤ cp.getD c 0 := by
            by_contra hlt
            exact hc ⟨hcb, by omega⟩
          constructor
          · omega
          · intro _
            omega
        · exact h5 c (by omega) hcb

theorem getD_set_same (l : List Nat) (c v : Nat) (h : c < l.length) :
    (l.set c v).getD c 0 = v := by
  simp [List.getD_eq_getElem?_getD, List.getElem?_set, h]

theorem getD_set_other (l : List Nat) (c c' v : Nat) (h : c' ≠ c) :
    (l.set c v).getD c' 0 = l.getD c' 0 := by
  simp [List.getD_eq_getElem?_getD, List.getElem?_set, Ne.symm h]

/-- The placement of a process that is not a system process on an SMP build
with more than one processor: the CPU found by the scan, whose counter is
incremented. -/
theorem pick_cpu_balanced (env : Env) (g : Globals) (p : Schedproc)
    (hsmp : env.CONFIG_SMP = true) (hmulti : env.processors_count ≠ 1)
    (hns : is_system_proc env p = false) :
    pick_cpu env g p =
      ({ g with cpu_proc := g.cpu_proc.set (pick_cpu_scan env g.cpu_proc)
                              ((g.cpu_proc.getD (pick_cpu_scan env g.cpu_proc) 0 + 1) % UINT_WRAP) },
       { p with cpu := pick_cpu_scan env g.cpu_proc }) := by
  unfold pick_cpu
  simp [hsmp, hmulti, hns]

/-- The scan, started as in the source. -/
theorem pick_cpu_scan_eq (env : Env) (cp : List Nat) :
    pick_cpu_scan env cp =
      ((List.range env.processors_count).foldl (pick_cpu_step env cp)
        (env.bsp_id, CPU_DEAD)).1 := rfl

/-! ## Placement and dead CPUs (C12) -/

/-- C12, as stated, fails: on two CPUs that are both marked dead, a process
that is not a system process is placed on the primary CPU 0, whose counter
wraps from `CPU_DEAD` to 0; and with only the primary CPU marked dead, a
system process is placed on it. -/
theorem C12_dead_primary_is_assigned :
    is_system_proc cfg_smp (slot0 5 5 3) = false ∧
    (pick_cpu cfg_smp { cpu_proc := [CPU_DEAD, CPU_DEAD], kcalls := 0 } (slot0 5 5 3)).2.cpu = 0 ∧
    (pick_cpu cfg_smp { cpu_proc := [CPU_DEAD, CPU_DEAD], kcalls := 0 } (slot0 5 5 3)).1.cpu_proc
      = [0, CPU_DEAD] ∧
    is_system_proc cfg_smp slot_sys = true ∧
    (pick_cpu cfg_smp { cpu_proc := [CPU_DEAD, 3], kcalls := 0 } slot_sys).2.cpu = 0 ∧
    [CPU_DEAD, 3].getD 0 0 = CPU_DEAD := by
  decide

/-- C12, amended: on an SMP build, for every CPU table, every processor count
and every process, a CPU other than the primary one that `pick_cpu` assigns is
not marked dead in the table. -/
theorem C12_assigned_secondary_is_live (env : Env) (g : Globals) (p : Schedproc)
    (hsmp : env.CONFIG_SMP = true)
    (hne : (pick_cpu env g p).2.cpu ≠ env.bsp_id) :
    g.cpu_proc.getD (pick_cpu env g p).2.cpu 0 ≠ CPU_DEAD := by
  by_cases hone : env.processors_count = 1
  · exact absurd ((pick_cpu_cpu env g p).2 hsmp (Or.inl hone)) hne
  · by_cases hsys : is_system_proc env p = true
    · have hpar : p.parent = env.RS_PROC_NR := by simpa [is_system_proc] using hsys
      exact absurd ((pick_cpu_cpu env g p).2 hsmp (Or.inr hpar)) hne
    · have hns : is_system_proc env p = false := by simpa using hsys
      have hcpu : (pick_cpu env g p).2.cpu =
          ((List.range env.processors_count).foldl (pick_cpu_step env g.cpu_proc)
            (env.bsp_id, CPU_DEAD)).1 := by
        rw [pick_cpu_balanced env g p hsmp hone hns]
        rfl
      rw [hcpu] at hne ⊢
      rcases pick_cpu_fold_inv env g.cpu_proc env.processors_count with
        ⟨hS, _⟩ | ⟨_, _, h3, h4, _⟩
      · exact absurd (congrArg Prod.fst hS) hne
      · omega

/-- C12, amended, at two CPUs with the primary one marked dead: a process that
is not a system process is placed on CPU 1, which is not marked dead. -/
theorem C12_assigned_secondary_is_live_witness :
    [CPU_DEAD, 7].getD
      (pick_cpu cfg_smp { cpu_proc := [CPU_DEAD, 7], kcalls := 0 } (slot0 5 5 3)).2.cpu 0
      ≠ CPU_DEAD :=
  C12_assigned_secondary_is_live cfg_smp { cpu_proc := [CPU_DEAD, 7], kcalls := 0 }
    (slot0 5 5 3) rfl (by decide)

/-! ## Placement on the least loaded CPU (C13) -/

/-- C13: on an SMP build with more than one processor, for a process that is
not a system process and a CPU table (of 32-bit counters, one for each
processor) in which some CPU other than the primary one is not marked dead,
`pick_cpu` assigns a CPU `c` other than the primary one that is not marked
dead, whose counter is the least among the CPUs other than the primary one
that are not marked dead, with the lowest index among equal counters; the
counter of `c` goes up by exactly one, every other counter and the number of
kernel calls stay, and the slot of the process changes in the field `cpu`
only. -/
theorem C13_least_loaded (env : Env) (g : Globals) (p : Schedproc)
    (hsmp : env.CONFIG_SMP = true) (hmulti : env.processors_count ≠ 1)
    (hns : is_system_proc env p = false)
    (hwf : ∀ c, g.cpu_proc.getD c 0 < UINT_WRAP)
    (hlen : env.processors_count ≤ g.cpu_proc.length)
    (hlive : ∃ c0, c0 < env.processors_count ∧ c0 ≠ env.bsp_id ∧
      g.cpu_proc.getD c0 0 ≠ CPU_DEAD) :
    ∃ c, (pick_cpu env g p).2 = { p with cpu := c } ∧
      c < env.processors_count ∧ c ≠ env.bsp_id ∧ g.cpu_proc.getD c 0 ≠ CPU_DEAD ∧
      (∀ c', c' < env.processors_count → c' ≠ env.bsp_id → g.cpu_proc.getD c' 0 ≠ CPU_DEAD →
        g.cpu_proc.getD c 0 ≤ g.cpu_proc.getD c' 0 ∧
        (g.cpu_proc.getD c' 0 = g.cpu_proc.getD c 0 → c ≤ c')) ∧
      (pick_cpu env g p).1.cpu_proc.getD c 0 = g.cpu_proc.getD c 0 + 1 ∧
      (∀ c', c' ≠ c → (pick_cpu env g p).1.cpu_proc.getD c' 0 = g.cpu_proc.getD c' 0) ∧
      (pick_cpu env g p).1.cpu_proc.length = g.cpu_proc.length ∧
      (pick_cpu env g p).1.kcalls = g.kcalls := by
  obtain ⟨c0, hc0, hc0b, hc0l⟩ := hlive
  have hdead := CPU_DEAD_val
  have hwrap : UINT_WRAP = 4294967296 := rfl
  rw [pick_cpu_balanced env g p hsmp hmulti hns, pick_cpu_scan_eq]
  rcases pick_cpu_fold_inv env g.cpu_proc env.processors_count with
    ⟨_, hall⟩ | ⟨h1, h2, h3, h4, h5⟩
  · have h6 := hall c0 hc0 hc0b
    have h7 := hwf c0
    omega
  · generalize (List.range env.processors_count).foldl (pick_cpu_step env g.cpu_proc)
      (env.bsp_id, CPU_DEAD) = S at h1 h2 h3 h4 h5 ⊢
    obtain ⟨c, load⟩ := S
    dsimp only at h1 h2 h3 h4 h5 ⊢
    have hmod : (g.cpu_proc.getD c 0 + 1) % UINT_WRAP = g.cpu_proc.getD c 0 + 1 :=
      Nat.mod_eq_of_lt (by omega)
    refine ⟨c, rfl, h2, h1, by omega, ?_, ?_, ?_, ?_, rfl⟩
    · intro c' hc' hb' _
      exact h5 c' hc' hb'
    · rw [getD_set_same _ _ _ (by omega), hmod]
    · intro c' hne
      exact getD_set_other _ _ _ _ hne
    · simp

/-- C13 at four CPUs with the counters `[0, 5, 2, 2]`. -/
theorem C13_least_loaded_witness :
    ∃ c, (pick_cpu cfg_smp4 { cpu_proc := [0, 5, 2, 2], kcalls := 0 } (slot0 5 5 3)).2
        = { slot0 5 5 3 with cpu := c } ∧
      c < cfg_smp4.processors_count ∧ c ≠ cfg_smp4.bsp_id ∧ [0, 5, 2, 2].getD c 0 ≠ CPU_DEAD ∧
      (∀ c', c' < cfg_smp4.processors_count → c' ≠ cfg_smp4.bsp_id →
        [0, 5, 2, 2].getD c' 0 ≠ CPU_DEAD →
        [0, 5, 2, 2].getD c 0 ≤ [0, 5, 2, 2].getD c' 0 ∧
        ([0, 5, 2, 2].getD c' 0 = [0, 5, 2, 2].getD c 0 → c ≤ c')) ∧
      (pick_cpu cfg_smp4 { cpu_proc := [0, 5, 2, 2], kcalls := 0 }
        (slot0 5 5 3)).1.cpu_proc.getD c 0 = [0, 5, 2, 2].getD c 0 + 1 ∧
      (∀ c', c' ≠ c →
        (pick_cpu cfg_smp4 { cpu_proc := [0, 5, 2, 2], kcalls := 0 }
          (slot0 5 5 3)).1.cpu_proc.getD c' 0 = [0, 5, 2, 2].getD c' 0) ∧
      (pick_cpu cfg_smp4 { cpu_proc := [0, 5, 2, 2], kcalls := 0 }
        (slot0 5 5 3)).1.cpu_proc.length = [0, 5, 2, 2].length ∧
      (pick_cpu cfg_smp4 { cpu_proc := [0, 5, 2, 2], kcalls := 0 } (slot0 5 5 3)).1.kcalls = 0 :=
  C13_least_loaded cfg_smp4 { cpu_proc := [0, 5, 2, 2], kcalls := 0 } (slot0 5 5 3) rfl
    (by decide) (by decide)
    (by
      intro c
      match c with
      | 0 => decide
      | 1 => decide
      | 2 => decide
      | 3 => decide
      | (k + 4) => exact Nat.zero_lt_succ _)
    (by decide) ⟨1, by decide, by decide, by decide⟩

/-! ## Repeated quantum exhaustion (C17) -/

/-- A handle resolves as in use to the slot `i` holding `P` exactly when it
maps to `i`, the table holds `P` there, and `P` is in use under that handle. -/
theorem sched_isokendpt_iff (env : Env) (tbl : List Schedproc) (e : Int) (i : Nat)
    (P : Schedproc) :
    sched_isokendpt env tbl e = .ok (i, P) ↔
      (0 ≤ env.ENDPOINT_P e ∧ i = (env.ENDPOINT_P e).toNat ∧ tbl[i]? = some P ∧
        P.endpoint = e ∧ in_use P = true) := by
  unfold sched_isokendpt
  by_cases h1 : env.ENDPOINT_P e < 0
  · simp only [h1, if_true]
    constructor
    · intro h
      cases h
    · intro h
      omega
  · simp only [h1, if_false]
    cases hp : tbl[(env.ENDPOINT_P e).toNat]? with
    | none =>
      simp only
      constructor
      · intro h
        cases h
      · rintro ⟨_, hi, ht, _, _⟩
        rw [hi, hp] at ht
        cases ht
    | some p =>
      dsimp only
      by_cases h2 : e ≠ p.endpoint
      · rw [if_pos h2]
        constructor
        · intro h
          cases h
        · rintro ⟨_, hi, ht, he, _⟩
          rw [hi, hp] at ht
          have hpP : p = P := Option.some.inj ht
          rw [hpP] at h2
          exact absurd he.symm h2
      · rw [if_neg h2]
        by_cases h3 : in_use p = true
        · simp only [h3, Bool.not_true, Bool.false_eq_true, if_false]
          constructor
          · intro h
            have hh : ((env.ENDPOINT_P e).toNat, p) = (i, P) := Except.ok.inj h
            have hi : (env.ENDPOINT_P e).toNat = i := congrArg Prod.fst hh
            have hP : p = P := congrArg Prod.snd hh
            subst hP
            subst hi
            exact ⟨by omega, rfl, hp, (not_not.mp h2).symm, h3⟩
          · rintro ⟨_, hi, ht, _, _⟩
            rw [hi, hp] at ht
            have hpP : p = P := Option.some.inj ht
            rw [hi, hpP]
        · have h3f : in_use p = false := by simpa using h3
          simp only [h3f, Bool.not_false, if_true]
          constructor
          · intro h
            cases h
          · rintro ⟨_, hi, ht, _, hu⟩
            rw [hi, hp] at ht
            have hpP : p = P := Option.some.inj ht
            rw [hpP] at h3
            exact absurd hu h3

/-- Slots with the same flags are both in use or both free. -/
theorem in_use_congr (p q : Schedproc) (h : p.flags = q.flags) : in_use p = in_use q := by
  unfold in_use
  rw [h]

/-- One quantum-exhaustion event for the process in slot `i`: afterwards the
sender still resolves to slot `i`, and the priority of the process is the
demoted one, or `MAX_USER_Q` when the demoted one is `USER_Q`. -/
theorem do_noquantum_slot (env : Env) (st : State) (m : Message) (rand_v random_v : Nat)
    (i : Nat) (P : Schedproc)
    (hres : sched_isokendpt env st.schedproc m.m_source = .ok (i, P)) :
    ∃ P', sched_isokendpt env (do_noquantum env st m rand_v random_v).2.schedproc m.m_source
        = .ok (i, P') ∧
      (P'.priority = (do_noquantum_demote env P).priority ∨
        ((do_noquantum_demote env P).priority = env.USER_Q ∧
          P'.priority = env.MAX_USER_Q)) := by
  obtain ⟨h0, hi, ht, he, hu⟩ := (sched_isokendpt_iff env st.schedproc m.m_source i P).mp hres
  have hlt : i < st.schedproc.length := (sched_isokendpt_ok env _ _ i P hres).2.2
  have hfr := do_noquantum_demote_frame env P
  have hX1 : (schedule_process_local env st.g (do_noquantum_demote env P)).2.2.endpoint
      = m.m_source := by
    unfold schedule_process_local
    rw [schedule_process_endpoint, hfr]
    exact he
  have hX2 : (schedule_process_local env st.g (do_noquantum_demote env P)).2.2.flags
      = P.flags := by
    unfold schedule_process_local
    rw [schedule_process_flags, hfr]
  have hX3 : (schedule_process_local env st.g (do_noquantum_demote env P)).2.2.priority
      = (do_noquantum_demote env P).priority := by
    unfold schedule_process_local
    rw [schedule_process_priority]
  have hset : (st.schedproc.set i
      (schedule_process_local env st.g (do_noquantum_demote env P)).2.2)[i]?
      = some (schedule_process_local env st.g (do_noquantum_demote env P)).2.2 := by
    simp [List.getElem?_set, hlt]
  rw [do_noquantum_resolved env st m rand_v random_v i P hres]
  split_ifs with hrv
  · refine ⟨_, ?_, Or.inl hX3⟩
    exact (sched_isokendpt_iff env _ m.m_source i _).mpr
      ⟨h0, hi, hset, hX1, by rw [in_use_congr _ P hX2]; exact hu⟩
  · obtain ⟨q', g1, _, _, g4, _, g6, g7⟩ := realizar_loteria_slot env
      { schedproc := st.schedproc.set i
          (schedule_process_local env st.g (do_noquantum_demote env P)).2.2,
        g := (schedule_process_local env st.g (do_noquantum_demote env P)).2.1 }
      rand_v random_v i _ hset
    refine ⟨q', ?_, ?_⟩
    · exact (sched_isokendpt_iff env _ m.m_source i q').mpr
        ⟨h0, hi, g1, by rw [g6]; exact hX1, by rw [in_use_congr q' P (by rw [g4, hX2])]; exact hu⟩
    · rw [hX3] at g7
      exact g7

/-- The priority that the demotion step leaves, by cases. -/
theorem do_noquantum_demote_priority (env : Env) (p : Schedproc) :
    (do_noquantum_demote env p).priority =
      if p.priority < env.MIN_USER_Q then p.priority + 1 else p.priority := by
  unfold do_noquantum_demote
  split_ifs <;> rfl

/-- A run of quantum-exhaustion events for a process at a priority up to
`MIN_USER_Q`: the sender resolves to the same slot after the run, the priority
is at most `MIN_USER_Q`, and when the process started at or below `USER_Q` in
rank (a priority number at least `USER_Q`) with `USER_Q` below `MIN_USER_Q`,
the priority is the starting one plus the number of events, capped at
`MIN_USER_Q`. -/
theorem noquantum_events_inv (env : Env) (m : Message) (i : Nat)
    (hband : env.MAX_USER_Q ≤ env.USER_Q ∧ env.USER_Q ≤ env.MIN_USER_Q) :
    ∀ (draws : List (Nat × Nat)) (st : State) (P : Schedproc),
      sched_isokendpt env st.schedproc m.m_source = .ok (i, P) →
      P.priority ≤ env.MIN_USER_Q →
      ∃ Pk, sched_isokendpt env (noquantum_events env m st draws).schedproc m.m_source
          = .ok (i, Pk) ∧
        Pk.priority ≤ env.MIN_USER_Q ∧
        (draws = [] → Pk = P) ∧
        (env.USER_Q < env.MIN_USER_Q → env.USER_Q ≤ P.priority →
          Pk.priority = min (P.priority + draws.length) env.MIN_USER_Q) := by
  intro draws
  induction draws with
  | nil =>
    intro st P hres hle
    refine ⟨P, hres, hle, fun _ => rfl, ?_⟩
    intro _ _
    simp only [List.length_nil, Nat.add_zero]
    omega
  | cons d ds ih =>
    intro st P hres hle
    obtain ⟨P', hres', hpr⟩ := do_noquantum_slot env st m d.1 d.2 i P hres
    have hD := do_noquantum_demote_priority env P
    have hle' : P'.priority ≤ env.MIN_USER_Q := by
      rcases hpr with h | ⟨_, h⟩
      · rw [h, hD]
        split_ifs <;> omega
      · rw [h]
        omega
    obtain ⟨Pk, g1, g2, _, g4⟩ := ih _ P' hres' hle'
    refine ⟨Pk, g1, g2, fun h => absurd h (List.cons_ne_nil d ds), ?_⟩
    intro hlt hge
    have hP' : P'.priority = (do_noquantum_demote env P).priority := by
      rcases hpr with h | ⟨h, _⟩
      · exact h
      · rw [hD] at h
        split_ifs at h <;> omega
    rw [hD] at hP'
    have hge' : env.USER_Q ≤ P'.priority := by
      rw [hP']
      split_ifs <;> omega
    rw [g4 hlt hge', hP']
    simp only [List.length_cons]
    split_ifs <;> omega

/-- C17: for a process `P` in use at `USER_Q` (with `USER_Q` inside the user
band), whatever the other slots of the table, the lottery draws and the
replies of the executor are, after `MIN_USER_Q - USER_Q` consecutive
quantum-exhaustion events for `P` its priority is `MIN_USER_Q`, after every
longer run it is at most `MIN_USER_Q`, and when `USER_Q` is below `MIN_USER_Q`
it is `min(USER_Q + k, MIN_USER_Q)` after `k` events. -/
theorem C17_repeated_exhaustion (env : Env) (st : State) (m : Message) (i : Nat) (P : Schedproc)
    (draws : List (Nat × Nat))
    (hband : env.MAX_USER_Q ≤ env.USER_Q ∧ env.USER_Q ≤ env.MIN_USER_Q)
    (hres : sched_isokendpt env st.schedproc m.m_source = .ok (i, P))
    (hprio : P.priority = env.USER_Q) :
    ∃ Pk, (noquantum_events env m st draws).schedproc[i]? = some Pk ∧ in_use Pk = true ∧
      (draws.length = env.MIN_USER_Q - env.USER_Q → Pk.priority = env.MIN_USER_Q) ∧
      (env.MIN_USER_Q - env.USER_Q ≤ draws.length → Pk.priority ≤ env.MIN_USER_Q) ∧
      (env.USER_Q < env.MIN_USER_Q →
        Pk.priority = min (env.USER_Q + draws.length) env.MIN_USER_Q) := by
  obtain ⟨Pk, g1, g2, g3, g4⟩ :=
    noquantum_events_inv env m i hband draws st P hres (by omega)
  obtain ⟨ht, hu, _⟩ := sched_isokendpt_ok env _ _ i Pk g1
  refine ⟨Pk, ht, hu, ?_, fun _ => g2, ?_⟩
  · intro hlen
    by_cases hlt : env.USER_Q < env.MIN_USER_Q
    · rw [g4 hlt (by omega), hprio, hlen]
      omega
    · have h0 : draws = [] := List.length_eq_zero.mp (by omega)
      rw [g3 h0, hprio]
      omega
  · intro hlt
    rw [g4 hlt (by omega), hprio]

/-- C17 at a process at priority 17 = `USER_Q` with `MIN_USER_Q` = 18 and one
event. -/
theorem C17_repeated_exhaustion_witness :
    ∃ Pk, (noquantum_events cfg (set_nice_msg 0 0) (state_of [slot0 17 17 3])
        [(0, 10)]).schedproc[0]? = some Pk ∧ in_use Pk = true ∧
      ([(0, 10)].length = cfg.MIN_USER_Q - cfg.USER_Q → Pk.priority = cfg.MIN_USER_Q) ∧
      (cfg.MIN_USER_Q - cfg.USER_Q ≤ [(0, 10)].length →
        Pk.priority ≤ cfg.MIN_USER_Q) ∧
      (cfg.USER_Q < cfg.MIN_USER_Q →
        Pk.priority = min (cfg.USER_Q + [(0, 10)].length) cfg.MIN_USER_Q) :=
  C17_repeated_exhaustion cfg (state_of [slot0 17 17 3]) (set_nice_msg 0 0) 0 (slot0 17 17 3)
    [(0, 10)] (by decide) (by rfl) rfl

/-! ## The scan of a lottery round (C18) -/

/-- The table that a lottery round leaves is the one its scan leaves, started
with the drawn target. -/
theorem realizar_loteria_table (env : Env) (st : State) (rand_v random_v : Nat) :
    (realizar_loteria env st rand_v random_v).2.schedproc =
      (for_each_slot (scan_step env)
        { g := st.g, TicketGanador := drawn_target env st rand_v random_v, flag := -1 }
        st.schedproc).2 := rfl

/-- The pool stays an `int` value. -/
theorem pool_step_range (env : Env) (r : Int) (n : Int) (q : Schedproc)
    (h : -2147483648 ≤ n ∧ n < 2147483648) :
    -2147483648 ≤ (pool_step env r n q).1 ∧ (pool_step env r n q).1 < 2147483648 := by
  unfold pool_step
  split_ifs <;> first | exact h | exact to_int_range _

/-- The drawn target is not negative and is an `int` value. -/
theorem drawn_target_range (env : Env) (st : State) (rand_v random_v : Nat) :
    0 ≤ drawn_target env st rand_v random_v ∧
    drawn_target env st rand_v random_v < 2147483648 := by
  have hpool := for_each_slot_inv (pool_step env (Int.tmod (rand_v : Int) 3))
    (fun n => -2147483648 ≤ n ∧ n < 2147483648)
    (fun s q hs => pool_step_range env _ s q hs) st.schedproc 0 (by omega)
  unfold drawn_target
  split_ifs with h
  · constructor
    · exact Int.tmod_nonneg _ (by omega)
    · generalize (for_each_slot (pool_step env (Int.tmod (rand_v : Int) 3)) 0 st.schedproc).1 = N
        at hpool h
      by_cases hN : 0 < N
      · have h1 := Int.tmod_lt_of_pos (random_v : Int) hN
        omega
      · have hneg : 0 < -N := by omega
        have h1 := Int.tmod_lt_of_pos (random_v : Int) hneg
        rw [Int.tmod_neg] at h1
        omega
  · omega

theorem ticket_sum_nil (env : Env) : ticket_sum env [] = 0 := rfl

theorem ticket_sum_cons (env : Env) (q : Schedproc) (l : List Schedproc) :
    ticket_sum env (q :: l) =
      (if eligible env q = true then q.ticketsNum else 0) + ticket_sum env l := by
  unfold ticket_sum
  by_cases h : eligible env q = true
  · simp [List.filter_cons, h]
  · simp [List.filter_cons, h]

/-- The sum of the tickets of the eligible slots is not negative when each of
them has at least one ticket. -/
theorem ticket_sum_nonneg (env : Env) :
    ∀ l : List Schedproc, (∀ q ∈ l, eligible env q = true → 1 ≤ q.ticketsNum) →
      0 ≤ ticket_sum env l := by
  intro l
  induction l with
  | nil => intro _; rw [ticket_sum_nil]
  | cons a l ih =>
    intro h
    have h1 := ih (fun q hq => h q (List.mem_cons_of_mem a hq))
    rw [ticket_sum_cons]
    split_ifs with he
    · have := h a (List.mem_cons_self a l) he
      omega
    · omega

/-- A slot that is not eligible is passed over by the scan. -/
theorem scan_step_not_eligible (env : Env) (s : Scan) (q : Schedproc)
    (h : ¬ eligible env q = true) : scan_step env s q = (s, q) := by
  unfold scan_step
  unfold eligible at h
  simp only [h, Bool.false_eq_true, if_false]

/-- Once the target is negative the scan changes nothing. -/
theorem scan_step_done (env : Env) (s : Scan) (q : Schedproc) (h : s.TicketGanador < 0) :
    scan_step env s q = (s, q) := by
  unfold scan_step
  have h0 : ¬ s.TicketGanador ≥ 0 := by omega
  by_cases he : (in_use q && PROCESS_IN_USER_Q env q && decide (env.USER_Q = q.priority)) = true
  · simp only [he, h0, if_true, if_false, ne_eq, not_true_eq_false]
  · simp only [he, Bool.false_eq_true, if_false]

/-- An eligible slot whose tickets do not exceed the target: the target goes
down by the tickets and the slot stays. -/
theorem scan_step_pass (env : Env) (s : Scan) (q : Schedproc)
    (he : eligible env q = true)
    (ht : 1 ≤ q.ticketsNum ∧ q.ticketsNum ≤ 2147483647)
    (htg : s.TicketGanador < 2147483648) (hle : q.ticketsNum ≤ s.TicketGanador) :
    scan_step env s q = ({ s with TicketGanador := s.TicketGanador - q.ticketsNum }, q) := by
  have hw : to_int (s.TicketGanador - q.ticketsNum) = s.TicketGanador - q.ticketsNum :=
    to_int_of_range _ (by omega) (by omega)
  have h0 : s.TicketGanador ≥ 0 := by omega
  have h1 : ¬ s.TicketGanador - q.ticketsNum < 0 := by omega
  unfold scan_step
  unfold eligible at he
  simp only [he, if_true, h0, hw, h1, if_false, ne_eq, not_true_eq_false]

/-- An eligible slot whose tickets exceed the target wins: the target becomes
negative and the priority of the slot `MAX_USER_Q`. -/
theorem scan_step_win (env : Env) (s : Scan) (q : Schedproc)
    (he : eligible env q = true)
    (ht : 1 ≤ q.ticketsNum ∧ q.ticketsNum ≤ 2147483647)
    (htg : 0 ≤ s.TicketGanador ∧ s.TicketGanador < 2147483648)
    (hlt : s.TicketGanador < q.ticketsNum) :
    (scan_step env s q).1.TicketGanador < 0 ∧
    (scan_step env s q).2.priority = env.MAX_USER_Q := by
  have hw : to_int (s.TicketGanador - q.ticketsNum) = s.TicketGanador - q.ticketsNum :=
    to_int_of_range _ (by omega) (by omega)
  have h0 : s.TicketGanador ≥ 0 := htg.1
  have h1 : s.TicketGanador - q.ticketsNum < 0 := by omega
  unfold scan_step
  unfold eligible at he
  simp only [he, if_true, h0, hw, h1]
  split_ifs
  · exact ⟨h1, schedule_process_priority env _ _ SCHEDULE_CHANGE_ALL⟩
  · exact ⟨h1, rfl⟩

/-- A scan over slots whose eligible tickets together do not exceed the target
selects no winner: the slots stay, and the target goes down by the sum. -/
theorem scan_no_winner (env : Env) :
    ∀ (l : List Schedproc) (s : Scan),
      (∀ q ∈ l, eligible env q = true → 1 ≤ q.ticketsNum ∧ q.ticketsNum ≤ 2147483647) →
      s.TicketGanador < 2147483648 → ticket_sum env l ≤ s.TicketGanador →
      for_each_slot (scan_step env) s l =
        ({ s with TicketGanador := s.TicketGanador - ticket_sum env l }, l) := by
  intro l
  induction l with
  | nil =>
    intro s _ _ _
    simp [for_each_slot, ticket_sum_nil]
  | cons a l ih =>
    intro s htk htg hle
    have htl : ∀ q ∈ l, eligible env q = true → 1 ≤ q.ticketsNum ∧ q.ticketsNum ≤ 2147483647 :=
      fun q hq => htk q (List.mem_cons_of_mem a hq)
    have hnn := ticket_sum_nonneg env l (fun q hq he => (htl q hq he).1)
    rw [ticket_sum_cons] at hle ⊢
    by_cases he : eligible env a = true
    · rw [if_pos he] at hle ⊢
      have hta := htk a (List.mem_cons_self a l) he
      have hstep := scan_step_pass env s a he hta htg (by omega)
      simp only [for_each_slot, hstep]
      rw [ih _ htl (by simp only; omega) (by simp only; omega)]
      simp only [Prod.mk.injEq, and_true]
      congr 1
      omega
    · rw [if_neg he] at hle ⊢
      have hstep := scan_step_not_eligible env s a he
      simp only [for_each_slot, hstep]
      rw [ih _ htl htg (by omega)]
      simp

/-- A scan that starts with a negative target changes nothing. -/
theorem scan_after_winner (env : Env) (s : Scan) (h : s.TicketGanador < 0)
    (l : List Schedproc) : for_each_slot (scan_step env) s l = (s, l) :=
  for_each_slot_skip (scan_step env) s l (fun q _ => scan_step_done env s q h)

/-- Two tables that differ in slot `pre.length` only agree on every other
slot. -/
theorem getElem?_other_slot (pre post : List Schedproc) (a b : Schedproc) (j : Nat)
    (h : j ≠ pre.length) : (pre ++ a :: post)[j]? = (pre ++ b :: post)[j]? := by
  rw [List.getElem?_append, List.getElem?_append]
  split_ifs with hlt
  · rfl
  · have hpos : j - pre.length = (j - pre.length - 1) + 1 := by omega
    rw [hpos, List.getElem?_cons_succ, List.getElem?_cons_succ]

/-- C18: for every process table whose eligible slots (in use, at `USER_Q`
inside the user band) have at least one ticket each (and an `int` number of
them), with `T` the target that the round draws, which is never negative: if
slot `w` is eligible, the tickets of the eligible slots before it do not exceed
`T` and together with its own tickets they do, then the round leaves slot `w`
at `MAX_USER_Q` with its ceiling, tickets and quantum as before, and leaves
every other slot as it was; and if the tickets of all eligible slots together
do not exceed `T`, the round leaves the whole table as it was. -/
theorem C18_scan_selects_first_over_target (env : Env) (st : State) (rand_v random_v : Nat)
    (htk : ∀ q ∈ st.schedproc, eligible env q = true →
      1 ≤ q.ticketsNum ∧ q.ticketsNum ≤ 2147483647) :
    0 ≤ drawn_target env st rand_v random_v ∧
    (∀ w P, st.schedproc[w]? = some P → eligible env P = true →
      ticket_sum env (st.schedproc.take w) ≤ drawn_target env st rand_v random_v →
      drawn_target env st rand_v random_v < ticket_sum env (st.schedproc.take w) + P.ticketsNum →
      ∃ P', (realizar_loteria env st rand_v random_v).2.schedproc[w]? = some P' ∧
        P'.priority = env.MAX_USER_Q ∧ P'.max_priority = P.max_priority ∧
        P'.ticketsNum = P.ticketsNum ∧ P'.time_slice = P.time_slice ∧
        ∀ j, j ≠ w →
          (realizar_loteria env st rand_v random_v).2.schedproc[j]? = st.schedproc[j]?) ∧
    (ticket_sum env st.schedproc ≤ drawn_target env st rand_v random_v →
      (realizar_loteria env st rand_v random_v).2.schedproc = st.schedproc) := by
  obtain ⟨hT0, hT1⟩ := drawn_target_range env st rand_v random_v
  refine ⟨hT0, ?_, ?_⟩
  · intro w P hP he hfirst hover
    obtain ⟨hsplit, hlen⟩ := split_at_slot st.schedproc w P hP
    have hpre : ∀ q ∈ st.schedproc.take w, eligible env q = true →
        1 ≤ q.ticketsNum ∧ q.ticketsNum ≤ 2147483647 :=
      fun q hq => htk q (List.mem_of_mem_take hq)
    have hPt := htk P (List.mem_iff_getElem?.mpr ⟨w, hP⟩) he
    have hnn := ticket_sum_nonneg env (st.schedproc.take w) (fun q hq h => (hpre q hq h).1)
    rw [realizar_loteria_table]
    generalize drawn_target env st rand_v random_v = T at hT0 hT1 hfirst hover ⊢
    generalize hpr : st.schedproc.take w = pre at hsplit hlen hpre hnn hfirst hover
    generalize st.schedproc.drop (w + 1) = post at hsplit
    rw [hsplit, for_each_slot_append,
      scan_no_winner env pre { g := st.g, TicketGanador := T, flag := -1 } hpre hT1 hfirst]
    simp only [for_each_slot]
    have hwin := scan_step_win env
      { g := st.g, TicketGanador := T - ticket_sum env pre, flag := -1 } P he hPt
      ⟨by simp only; omega, by simp only; omega⟩ (by simp only; omega)
    obtain ⟨f1, f2, _, f4, _, _⟩ := scan_step_slot env
      { g := st.g, TicketGanador := T - ticket_sum env pre, flag := -1 } P
    rw [scan_after_winner env _ hwin.1 post]
    refine ⟨_, ?_, hwin.2, f1, f2, f4, ?_⟩
    · rw [List.getElem?_append_right (by omega)]
      simp [hlen]
    · intro j hj
      exact getElem?_other_slot pre post _ P j (by omega)
  · intro hall
    rw [realizar_loteria_table,
      scan_no_winner env st.schedproc _ htk hT1 hall]

/-- C18 at a table with two eligible slots with 3 and 40 tickets, class 0
(pool 100) and target 10: slot 1 is the first whose cumulative sum, 43,
exceeds the target. -/
theorem C18_scan_selects_first_over_target_witness :
    ∃ P', (realizar_loteria cfg (state_of [slot0 17 17 3, slot100 17 17 40]) 0
        10).2.schedproc[1]? = some P' ∧
      P'.priority = cfg.MAX_USER_Q ∧ P'.max_priority = (slot100 17 17 40).max_priority ∧
      P'.ticketsNum = (slot100 17 17 40).ticketsNum ∧
      P'.time_slice = (slot100 17 17 40).time_slice ∧
      ∀ j, j ≠ 1 →
        (realizar_loteria cfg (state_of [slot0 17 17 3, slot100 17 17 40]) 0 10).2.schedproc[j]?
          = (state_of [slot0 17 17 3, slot100 17 17 40]).schedproc[j]? :=
  (C18_scan_selects_first_over_target cfg (state_of [slot0 17 17 3, slot100 17 17 40]) 0 10
    (by
      intro q hq _
      have hq2 : q = slot0 17 17 3 ∨ q = slot100 17 17 40 := by
        simpa [state_of] using hq
      rcases hq2 with h | h <;> rw [h] <;> decide)).2.1 1 (slot100 17 17 40) rfl
    (by decide) (by decide) (by decide)

/-! ## Registration: the paths of `do_start_scheduling` -/

theorem populated_frame (env : Env) (m : Message) (rmp0 : Schedproc) :
    (populated env m rmp0).flags = rmp0.flags ∧
    (populated env m rmp0).endpoint = m.endpoint ∧
    (populated env m rmp0).max_priority = to_unsigned m.maxprio ∧
    (populated env m rmp0).ticketsNum = 3 := by
  unfold populated
  split_ifs <;> exact ⟨rfl, rfl, rfl, rfl⟩

/-- The body of `do_start_scheduling` once the request is accepted and the
handle resolved to a free slot. -/
theorem do_start_scheduling_resolved (env : Env) (fuel : Nat) (st : State) (m : Message)
    (i : Nat) (rmp0 : Schedproc)
    (hacc : env.accept_message m = true)
    (hfree : sched_isemtyendpt env st.schedproc m.endpoint = .ok (i, rmp0)) :
    do_start_scheduling env fuel st m =
      match m.m_type with
      | .SCHEDULING_START =>
        start_take_over env fuel st i
          { populated env m rmp0 with priority := (populated env m rmp0).max_priority,
                                      time_slice := to_unsigned m.quantum } m
      | .SCHEDULING_INHERIT =>
        match sched_isokendpt env (st.schedproc.set i (populated env m rmp0)) m.parent with
        | .error rv =>
          some (rv, m, { st with schedproc := st.schedproc.set i (populated env m rmp0) })
        | .ok (_, parent_rmp) =>
          start_take_over env fuel st i
            { populated env m rmp0 with priority := env.USER_Q,
                                        time_slice := parent_rmp.time_slice } m := by
  unfold do_start_scheduling populated
  simp only [hacc, hfree, Bool.not_true, Bool.false_eq_true, if_false]

/-- The take-over call fails: `do_start_scheduling` returns its error, the
slot is written back as populated, and the CPU table is not touched. -/
theorem start_take_over_fails (env : Env) (fuel : Nat) (st : State) (i : Nat) (rmp : Schedproc)
    (m : Message) (h : env.sys_schedctl st.g.kcalls rmp.endpoint ≠ OK) :
    start_take_over env fuel st i rmp m =
      some (env.sys_schedctl st.g.kcalls rmp.endpoint, m,
        { schedproc := st.schedproc.set i rmp,
          g := { st.g with kcalls := st.g.kcalls + 1 } }) := by
  unfold start_take_over
  simp only [h, ne_eq, not_false_eq_true, if_true]

/-- An error of the resolution of a handle expected to be in use is one of
the three error numbers. -/
theorem sched_isokendpt_cases (env : Env) (tbl : List Schedproc) (e : Int) :
    (∃ y, sched_isokendpt env tbl e = .error y ∧
      (y = env.EBADEPT ∨ y = env.EINVAL ∨ y = env.EDEADEPT)) ∨
    (∃ k Q, sched_isokendpt env tbl e = .ok (k, Q)) := by
  unfold sched_isokendpt
  by_cases h1 : env.ENDPOINT_P e < 0
  · left
    exact ⟨env.EBADEPT, by simp [h1], Or.inl rfl⟩
  · simp only [h1, if_false]
    cases hp : tbl[(env.ENDPOINT_P e).toNat]? with
    | none =>
      left
      exact ⟨env.EINVAL, rfl, Or.inr (Or.inl rfl)⟩
    | some p =>
      dsimp only
      by_cases h2 : e ≠ p.endpoint
      · left
        exact ⟨env.EDEADEPT, by rw [if_pos h2], Or.inr (Or.inr rfl)⟩
      · rw [if_neg h2]
        by_cases h3 : (!in_use p) = true
        · left
          exact ⟨env.EDEADEPT, by rw [if_pos h3], Or.inr (Or.inr rfl)⟩
        · right
          exact ⟨_, _, by rw [if_neg h3]⟩

/-- A parent that resolves as in use before the slot of the child is
populated resolves in the same way afterwards. -/
theorem sched_isokendpt_populated_ok (env : Env) (tbl : List Schedproc) (e : Int) (i : Nat)
    (rmp p0 : Schedproc) (j : Nat) (Pp : Schedproc)
    (hj : sched_isokendpt env tbl e = .ok (j, Pp))
    (hi : tbl[i]? = some p0) (hp0 : in_use p0 = false) :
    sched_isokendpt env (tbl.set i rmp) e = .ok (j, Pp) := by
  obtain ⟨h0, hjn, ht, he, hu⟩ := (sched_isokendpt_iff env tbl e j Pp).mp hj
  have hne : i ≠ j := by
    intro hc
    rw [hc, ht] at hi
    have : Pp = p0 := Option.some.inj hi
    rw [this, hp0] at hu
    cases hu
  refine (sched_isokendpt_iff env _ e j Pp).mpr ⟨h0, hjn, ?_, he, hu⟩
  rw [List.getElem?_set, if_neg hne]
  exact ht

/-- A parent that does not resolve as in use before the slot of the child is
populated does not resolve afterwards, the slot of the child not being in
use. -/
theorem sched_isokendpt_populated_error (env : Env) (tbl : List Schedproc) (e : Int) (i : Nat)
    (rmp : Schedproc) (x : Int)
    (hx : sched_isokendpt env tbl e = .error x) (hrf : in_use rmp = false) :
    ∃ y, sched_isokendpt env (tbl.set i rmp) e = .error y ∧
      (y = env.EBADEPT ∨ y = env.EINVAL ∨ y = env.EDEADEPT) := by
  rcases sched_isokendpt_cases env (tbl.set i rmp) e with h | ⟨k, Q, hk⟩
  · exact h
  · exfalso
    obtain ⟨h0, hkn, ht, he, hu⟩ := (sched_isokendpt_iff env _ e k Q).mp hk
    rw [List.getElem?_set] at ht
    by_cases hik : i = k
    · rw [if_pos hik] at ht
      split_ifs at ht
      · have : rmp = Q := Option.some.inj ht
        rw [← this, hrf] at hu
        cases hu
    · rw [if_neg hik] at ht
      have hok := (sched_isokendpt_iff env tbl e k Q).mpr ⟨h0, hkn, ht, he, hu⟩
      rw [hok] at hx
      cases hx

/-- A handle that resolves as free names a slot of the table that is not in
use. -/
theorem sched_isemtyendpt_ok (env : Env) (tbl : List Schedproc) (e : Int) (i : Nat)
    (p : Schedproc) (h : sched_isemtyendpt env tbl e = .ok (i, p)) :
    i = (env.ENDPOINT_P e).toNat ∧ tbl[i]? = some p ∧ in_use p = false ∧ i < tbl.length := by
  rcases sched_isemtyendpt_cases env tbl e with ⟨rv, he, _⟩ | ⟨q, he, _, hq, hfree, hlt⟩
  · rw [he] at h
    cases h
  · rw [he] at h
    have hh : ((env.ENDPOINT_P e).toNat, q) = (i, p) := Except.ok.inj h
    have hi : (env.ENDPOINT_P e).toNat = i := congrArg Prod.fst hh
    have hp : q = p := congrArg Prod.snd hh
    subst hp
    subst hi
    exact ⟨rfl, hq, hfree, hlt⟩

/-- A call of `do_start_scheduling` that returns `OK`, the error numbers being
different from `OK`, was accepted and found a free slot. -/
theorem do_start_scheduling_success (env : Env) (fuel : Nat) (st : State) (m m' : Message)
    (st' : State)
    (herr : env.EPERM ≠ OK ∧ env.EBADEPT ≠ OK ∧ env.EINVAL ≠ OK ∧ env.EDEADEPT ≠ OK)
    (hsucc : do_start_scheduling env fuel st m = some (OK, m', st')) :
    env.accept_message m = true ∧
    ∃ p, sched_isemtyendpt env st.schedproc m.endpoint = .ok ((env.ENDPOINT_P m.endpoint).toNat, p)
    := by
  by_cases hacc : env.accept_message m = true
  · refine ⟨hacc, ?_⟩
    rcases sched_isemtyendpt_cases env st.schedproc m.endpoint with
      ⟨rv, he, hrv⟩ | ⟨p, he, _⟩
    · exfalso
      unfold do_start_scheduling at hsucc
      simp only [hacc, Bool.not_true, Bool.false_eq_true, if_false, he] at hsucc
      have h1 : rv = OK := congrArg Prod.fst (Option.some.inj hsucc)
      rcases hrv with h | h | h
      · exact absurd (h ▸ h1) herr.2.1
      · exact absurd (h ▸ h1) herr.2.2.1
      · exact absurd (h ▸ h1) herr.2.2.2
    · exact ⟨p, he⟩
  · exfalso
    unfold do_start_scheduling at hsucc
    simp only [hacc, Bool.not_false, if_true] at hsucc
    have h1 : env.EPERM = OK := congrArg Prod.fst (Option.some.inj hsucc)
    exact absurd h1 herr.1

/-! ## Inheriting registration (C11) -/

/-- C11: for a StartScheduling of kind `SCHEDULING_INHERIT` (the error numbers
being different from `OK`): when the parent handle resolves to an in-use
process with quantum `q` and the call returns `OK`, the child ends in use with
priority `USER_Q`, quantum `q`, 3 tickets and the ceiling of the message,
whatever that ceiling is; and when the request is accepted, the child handle
resolves to a free slot and the parent handle does not resolve to an in-use
process, the call returns an error, the slot of the child is not in use
afterwards, and the CPU table and the count of kernel calls are as before. -/
theorem C11_inheriting_start (env : Env) (fuel : Nat) (st : State) (m : Message)
    (herr : env.EPERM ≠ OK ∧ env.EBADEPT ≠ OK ∧ env.EINVAL ≠ OK ∧ env.EDEADEPT ≠ OK)
    (hkind : m.m_type = .SCHEDULING_INHERIT) :
    (∀ j Pp m' st', sched_isokendpt env st.schedproc m.parent = .ok (j, Pp) →
      do_start_scheduling env fuel st m = some (OK, m', st') →
      ∃ C, st'.schedproc[(env.ENDPOINT_P m.endpoint).toNat]? = some C ∧ in_use C = true ∧
        C.endpoint = m.endpoint ∧ C.priority = env.USER_Q ∧ C.time_slice = Pp.time_slice ∧
        C.ticketsNum = 3 ∧ C.max_priority = to_unsigned m.maxprio) ∧
    (∀ i rmp0 e, env.accept_message m = true →
      sched_isemtyendpt env st.schedproc m.endpoint = .ok (i, rmp0) →
      sched_isokendpt env st.schedproc m.parent = .error e →
      ∃ rv st', do_start_scheduling env fuel st m = some (rv, m, st') ∧ rv ≠ OK ∧
        (∃ C, st'.schedproc[i]? = some C ∧ in_use C = false) ∧ st'.g = st.g) := by
  constructor
  · intro j Pp m' st' hpar hsucc
    obtain ⟨hacc, p, hfree⟩ := do_start_scheduling_success env fuel st m m' st' herr hsucc
    obtain ⟨_, hp, hpf, hlt⟩ := sched_isemtyendpt_ok env _ _ _ p hfree
    obtain ⟨f1, f2, f3, f4⟩ := populated_frame env m p
    rw [do_start_scheduling_resolved env fuel st m _ p hacc hfree, hkind] at hsucc
    simp only at hsucc
    rw [sched_isokendpt_populated_ok env st.schedproc m.parent _ _ p j Pp hpar hp hpf] at hsucc
    simp only at hsucc
    obtain ⟨C, g1, g2, _, _⟩ := start_take_over_ok env fuel st _ _ m m' st' hlt hsucc
    refine ⟨C, g1, ?_, ?_, ?_, ?_, ?_, ?_⟩
    · rw [g2]; exact in_use_of_flags _ rfl
    · rw [g2]; exact f2
    · rw [g2]
    · rw [g2]
    · rw [g2]; exact f4
    · rw [g2]; exact f3
  · intro i rmp0 e hacc hfree hperr
    obtain ⟨_, _, hpf, hlt⟩ := sched_isemtyendpt_ok env _ _ i rmp0 hfree
    obtain ⟨f1, _, _, _⟩ := populated_frame env m rmp0
    have hnot : in_use (populated env m rmp0) = false := by
      rw [in_use_congr _ rmp0 f1]
      exact hpf
    obtain ⟨y, hy, hyc⟩ := sched_isokendpt_populated_error env st.schedproc m.parent i
      (populated env m rmp0) e hperr hnot
    rw [do_start_scheduling_resolved env fuel st m i rmp0 hacc hfree, hkind]
    simp only [hy]
    refine ⟨y, _, rfl, ?_, ⟨populated env m rmp0, ?_, hnot⟩, rfl⟩
    · rcases hyc with h | h | h
      · rw [h]; exact herr.2.1
      · rw [h]; exact herr.2.2.1
      · rw [h]; exact herr.2.2.2
    · simp [List.getElem?_set, hlt]

/-- C11 at the scenario of the specification: the child with endpoint 1 inherits
from a registered parent with quantum 42 and ends at `USER_Q` = 17 with
quantum 42 and 3 tickets, its ceiling being 9. -/
theorem C11_inheriting_start_witness :
    do_start_scheduling cfg 1 (state_of [slot_parent, free_slot])
        (start_msg .SCHEDULING_INHERIT 1 0 9 0)
      = some (OK, { start_msg .SCHEDULING_INHERIT 1 0 9 0 with scheduler := 4 },
          state_inherited) ∧
    ∃ C, state_inherited.schedproc[1]? = some C ∧ in_use C = true ∧ C.priority = 17 ∧
      C.time_slice = 42 ∧ C.ticketsNum = 3 ∧ C.max_priority = 9 := by
  have hrun : do_start_scheduling cfg 1 (state_of [slot_parent, free_slot])
      (start_msg .SCHEDULING_INHERIT 1 0 9 0)
      = some (OK, { start_msg .SCHEDULING_INHERIT 1 0 9 0 with scheduler := 4 },
          state_inherited) := by decide
  obtain ⟨C, h1, h2, _, h4, h5, h6, h7⟩ :=
    (C11_inheriting_start cfg 1 (state_of [slot_parent, free_slot])
      (start_msg .SCHEDULING_INHERIT 1 0 9 0) (by decide) rfl).1 0 slot_parent
      { start_msg .SCHEDULING_INHERIT 1 0 9 0 with scheduler := 4 } state_inherited
      (by rfl) hrun
  exact ⟨hrun, C, h1, h2, h4, h5, h6, h7⟩

theorem set_getElem?_self (l : List Schedproc) (i : Nat) (x : Schedproc)
    (h : i < l.length) : (l.set i x)[i]? = some x := by
  simp [List.getElem?_set, h]

/-! ## Failed registration (C19) -/

/-- C19, as stated, fails: on two CPUs with counters `[0, 0]`, a StartScheduling
on a free slot whose push the executor rejects with `EINVAL` (-22, not
`EBADCPU`) returns -22 with the slot marked in use and the counters at
`[0, 2]`. -/
theorem C19_failed_push_keeps_slot_in_use :
    in_use free_slot = false ∧ cfg_smp_reject.EBADCPU ≠ -22 ∧
    (do_start_scheduling cfg_smp_reject 1 (state_smp [free_slot])
        (start_msg .SCHEDULING_START 0 1 5 200)).map
      (fun r => (r.1, r.2.2.schedproc.map in_use, r.2.2.g.cpu_proc))
      = some (-22, [true], [0, 2]) := by
  decide

/-- C19, amended: for every accepted StartScheduling call on a free slot
(the error numbers of the handle resolution being different from `OK`) that
fails because the parent of an inheriting registration does not resolve, or
because the take-over call fails, the call returns an error, the slot is not
in use afterwards and the CPU table is the one before the call. -/
theorem C19_aborted_registration (env : Env) (fuel : Nat) (st : State) (m : Message) (i : Nat)
    (rmp0 : Schedproc)
    (herr : env.EBADEPT ≠ OK ∧ env.EINVAL ≠ OK ∧ env.EDEADEPT ≠ OK)
    (hacc : env.accept_message m = true)
    (hfree : sched_isemtyendpt env st.schedproc m.endpoint = .ok (i, rmp0))
    (hcause :
      (m.m_type = .SCHEDULING_INHERIT ∧
        ∃ e, sched_isokendpt env st.schedproc m.parent = .error e) ∨
      ((m.m_type = .SCHEDULING_START ∨
          ∃ j Pp, sched_isokendpt env st.schedproc m.parent = .ok (j, Pp)) ∧
        env.sys_schedctl st.g.kcalls m.endpoint ≠ OK)) :
    ∃ rv st', do_start_scheduling env fuel st m = some (rv, m, st') ∧ rv ≠ OK ∧
      (∃ C, st'.schedproc[i]? = some C ∧ in_use C = false) ∧
      st'.g.cpu_proc = st.g.cpu_proc := by
  obtain ⟨_, hp, hpf, hlt⟩ := sched_isemtyendpt_ok env _ _ i rmp0 hfree
  obtain ⟨f1, f2, _, _⟩ := populated_frame env m rmp0
  have hnot : in_use (populated env m rmp0) = false := by
    rw [in_use_congr _ rmp0 f1]
    exact hpf
  rw [do_start_scheduling_resolved env fuel st m i rmp0 hacc hfree]
  rcases hcause with ⟨hkind, e, hperr⟩ | ⟨hpar, hctl⟩
  · obtain ⟨y, hy, hyc⟩ := sched_isokendpt_populated_error env st.schedproc m.parent i
      (populated env m rmp0) e hperr hnot
    rw [hkind]
    simp only [hy]
    refine ⟨y, _, rfl, ?_, ⟨populated env m rmp0, ?_, hnot⟩, rfl⟩
    · rcases hyc with h | h | h
      · rw [h]; exact herr.1
      · rw [h]; exact herr.2.1
      · rw [h]; exact herr.2.2
    · simp [List.getElem?_set, hlt]
  · cases hk : m.m_type with
    | SCHEDULING_START =>
      simp only
      rw [start_take_over_fails env fuel st i _ m
        (by show env.sys_schedctl st.g.kcalls (populated env m rmp0).endpoint ≠ OK
            rw [f2]; exact hctl)]
      refine ⟨_, _, rfl, ?_, ⟨_, set_getElem?_self _ _ _ hlt, ?_⟩, rfl⟩
      · show env.sys_schedctl st.g.kcalls (populated env m rmp0).endpoint ≠ OK
        rw [f2]; exact hctl
      · exact (in_use_congr _ rmp0 f1).trans hpf
    | SCHEDULING_INHERIT =>
      rcases hpar with hs | ⟨j, Pp, hj⟩
      · rw [hk] at hs
        cases hs
      · simp only
        rw [sched_isokendpt_populated_ok env st.schedproc m.parent _ _ rmp0 j Pp hj hp hpf]
        simp only
        rw [start_take_over_fails env fuel st i _ m
          (by show env.sys_schedctl st.g.kcalls (populated env m rmp0).endpoint ≠ OK
              rw [f2]; exact hctl)]
        refine ⟨_, _, rfl, ?_, ⟨_, set_getElem?_self _ _ _ hlt, ?_⟩, rfl⟩
        · show env.sys_schedctl st.g.kcalls (populated env m rmp0).endpoint ≠ OK
          rw [f2]; exact hctl
        · exact (in_use_congr _ rmp0 f1).trans hpf

/-- C19, amended, at a registration whose take-over call is refused and at an
inheriting registration whose parent handle names no slot of the table. -/
theorem C19_aborted_registration_witness :
    (∃ rv st', do_start_scheduling cfg_noctl 1 (state_smp [free_slot])
        (start_msg .SCHEDULING_START 0 1 5 200)
        = some (rv, start_msg .SCHEDULING_START 0 1 5 200, st') ∧ rv ≠ OK ∧
      (∃ C, st'.schedproc[0]? = some C ∧ in_use C = false) ∧
      st'.g.cpu_proc = (state_smp [free_slot]).g.cpu_proc) ∧
    (∃ rv st', do_start_scheduling cfg 1 (state_of [slot_parent, free_slot])
        (start_msg .SCHEDULING_INHERIT 1 7 9 0)
        = some (rv, start_msg .SCHEDULING_INHERIT 1 7 9 0, st') ∧ rv ≠ OK ∧
      (∃ C, st'.schedproc[1]? = some C ∧ in_use C = false) ∧
      st'.g.cpu_proc = (state_of [slot_parent, free_slot]).g.cpu_proc) :=
  ⟨C19_aborted_registration cfg_noctl 1 (state_smp [free_slot])
      (start_msg .SCHEDULING_START 0 1 5 200) 0 free_slot (by decide) rfl (by rfl)
      (Or.inr ⟨Or.inl rfl, by decide⟩),
   C19_aborted_registration cfg 1 (state_of [slot_parent, free_slot])
      (start_msg .SCHEDULING_INHERIT 1 7 9 0) 1 free_slot (by decide) rfl (by rfl)
      (Or.inl ⟨rfl, -22, by rfl⟩)⟩

/-! ## When a lottery round returns the no-winner code -/

end MinixSched
